import Mathlib

/-!
Verification of the multi-database connection and schema-migration manager of
the IntraTooHubDespachIA repository (src/modules/core/lib/db.ts and the
per-module initializer/migrator files).  SQLite databases are modelled as
lists of named tables holding rows of column/value pairs; the process-wide
connection manager is modelled as a state-passing function over a world
holding the file system, the connection cache and the allocated handles.
-/

set_option maxRecDepth 10000

/-- A SQLite value: integer, text, or NULL (REAL values in the sources are
modelled as integers; no claim inspects fractional parts). -/
inductive Val where
  | i (n : Int)
  | s (t : String)
  | null
deriving DecidableEq, Repr

/-- A table row: an association list from column name to value. -/
abbrev Row := List (String × Val)

/-- First-match lookup in an association list (the semantics of reading a
field of a row, and of the cache / handle-store maps). -/
def aget {α β : Type} [DecidableEq α] (k : α) : List (α × β) → Option β
  | [] => none
  | (k2, v) :: rest => if k2 = k then some v else aget k rest

/-- Replace the value stored under a key, or append the binding at the end
when the key is absent (the semantics of Map.set and of UPDATE on a field). -/
def aset {α β : Type} [DecidableEq α] (k : α) (v : β) : List (α × β) → List (α × β)
  | [] => [(k, v)]
  | (k2, v2) :: rest => if k2 = k then (k, v) :: rest else (k2, v2) :: aset k v rest

/-- Remove every binding of a key (the semantics of Map.delete). -/
def adel {α β : Type} [DecidableEq α] (k : α) : List (α × β) → List (α × β)
  | [] => []
  | (k2, v) :: rest => if k2 = k then adel k rest else (k2, v) :: adel k rest

theorem aget_aset_self {α β : Type} [DecidableEq α] (k : α) (v : β) (l : List (α × β)) :
    aget k (aset k v l) = some v := by
  induction l with
  | nil => simp [aget, aset]
  | cons p rest ih =>
    by_cases h : p.1 = k
    · simp [aset, aget, h]
    · simp [aset, aget, h, ih]

theorem aget_aset_ne {α β : Type} [DecidableEq α] (k k2 : α) (v : β) (l : List (α × β))
    (h : k ≠ k2) : aget k2 (aset k v l) = aget k2 l := by
  induction l with
  | nil => simp [aget, aset, h]
  | cons p rest ih =>
    by_cases hp : p.1 = k
    · simp [aset, aget, hp, h]
    · simp [aset, aget, hp, ih]

theorem aget_adel_self {α β : Type} [DecidableEq α] (k : α) (l : List (α × β)) :
    aget k (adel k l) = none := by
  induction l with
  | nil => simp [aget, adel]
  | cons p rest ih =>
    by_cases hp : p.1 = k
    · simpa [adel, hp] using ih
    · simpa [adel, aget, hp] using ih

theorem aget_adel_ne {α β : Type} [DecidableEq α] (k k2 : α) (l : List (α × β))
    (h : k ≠ k2) : aget k2 (adel k l) = aget k2 l := by
  induction l with
  | nil => simp [aget, adel]
  | cons p rest ih =>
    by_cases hp : p.1 = k
    · simpa [adel, aget, hp, h] using ih
    · by_cases hk2 : p.1 = k2
      · simp [adel, aget, hp, hk2, Ne.symm h]
      · simpa [adel, aget, hp, hk2] using ih

theorem aget_append_left {α β : Type} [DecidableEq α] (k : α) (l l2 : List (α × β)) (v : β)
    (h : aget k l = some v) : aget k (l ++ l2) = some v := by
  induction l with
  | nil => simp [aget] at h
  | cons p rest ih =>
    by_cases hp : p.1 = k
    · simp [aget, hp] at h ⊢; exact h
    · simp [aget, hp] at h ⊢; exact ih h

/-- A SQLite table: name, ordered column list, primary-key column list,
and the stored rows. -/
structure Table where
  name : String
  cols : List String
  pk : List String
  rows : List Row
deriving DecidableEq, Repr

/-- A database file's logical content: its list of tables. -/
abbrev DB := List Table

/-- Lookup of a table by name (SELECT name FROM sqlite_master ... / PRAGMA). -/
def getTable (db : DB) (n : String) : Option Table :=
  db.find? (fun t => t.name = n)

/-- Table-existence check (SELECT name FROM sqlite_master WHERE type='table'). -/
def hasTable (db : DB) (n : String) : Bool :=
  (getTable db n).isSome

/-- Column-existence check (PRAGMA table_info membership). -/
def hasCol (db : DB) (n c : String) : Bool :=
  match getTable db n with
  | some t => t.cols.contains c
  | none => false

/-- Replace a table (keyed by name) in the database. -/
def setTable (db : DB) (t : Table) : DB :=
  db.map (fun t2 => if t2.name = t.name then t else t2)

/-- CREATE TABLE: appends a fresh empty table. Used only where the source
guards on non-existence (plain CREATE TABLE throws on an existing table). -/
def createTable (db : DB) (n : String) (cols pk : List String) : DB :=
  db ++ [⟨n, cols, pk, []⟩]

/-- CREATE TABLE IF NOT EXISTS: no-op when the table already exists. -/
def ctine (db : DB) (n : String) (cols pk : List String) : DB :=
  if hasTable db n then db else createTable db n cols pk

/-- DROP TABLE. -/
def dropTable (db : DB) (n : String) : DB :=
  db.filter (fun t => t.name ≠ n)

/-- ALTER TABLE ADD COLUMN with a DEFAULT: the column is appended to the
schema and every existing row receives the default value. -/
def addColumnD (db : DB) (n c : String) (dflt : Val) : DB :=
  match getTable db n with
  | some t => setTable db { t with cols := t.cols ++ [c],
                                   rows := t.rows.map (fun r => r ++ [(c, dflt)]) }
  | none => db

/-- ALTER TABLE ADD COLUMN without a DEFAULT (existing rows get NULL). -/
def addColumn (db : DB) (n c : String) : DB :=
  addColumnD db n c Val.null

/-- ALTER TABLE DROP COLUMN. -/
def dropColumn (db : DB) (n c : String) : DB :=
  match getTable db n with
  | some t => setTable db { t with cols := t.cols.filter (fun c2 => c2 ≠ c),
                                   rows := t.rows.map (fun r => r.filter (fun p => p.1 ≠ c)) }
  | none => db

/-- Whether two rows agree on every primary-key column. -/
def pkMatch (pk : List String) (r1 r2 : Row) : Bool :=
  pk.all (fun c => aget c r1 = aget c r2)

/-- INSERT OR IGNORE: the row is appended unless a stored row already has the
same primary-key values. -/
def insertOrIgnore (db : DB) (n : String) (r : Row) : DB :=
  match getTable db n with
  | some t =>
    if t.rows.any (fun r2 => pkMatch t.pk r r2) then db
    else setTable db { t with rows := t.rows ++ [r] }
  | none => db

/-- UPDATE ... SET (per-row transformation of the rows matching a filter). -/
def updateRows (db : DB) (n : String) (p : Row → Bool) (f : Row → Row) : DB :=
  match getTable db n with
  | some t => setTable db { t with rows := t.rows.map (fun r => if p r then f r else r) }
  | none => db

/-- Write one field of a row (first occurrence replaced, appended if absent). -/
def setVal (r : Row) (c : String) (v : Val) : Row :=
  aset c v r

/-! ## Main database schema (initializeMainDatabase, core/lib/db.ts) -/

def usersCols : List String :=
  ["id", "name", "email", "password", "phone", "whatsapp", "erpAlias", "avatar", "role",
   "recentActivity", "securityQuestion", "securityAnswer", "forcePasswordChange",
   "activeWizardSession"]

def companySettingsCols : List String :=
  ["id", "name", "taxId", "address", "phone", "email", "logoUrl", "systemName", "publicUrl",
   "quotePrefix", "nextQuoteNumber", "decimalPlaces", "quoterShowTaxId", "searchDebounceTime",
   "syncWarningHours", "lastSyncTimestamp", "importMode", "customerFilePath", "productFilePath",
   "exemptionFilePath", "stockFilePath", "locationFilePath", "cabysFilePath", "supplierFilePath",
   "erpPurchaseOrderHeaderFilePath", "erpPurchaseOrderLineFilePath", "erpInvoiceHeaderFilePath",
   "erpInvoiceLineFilePath"]

def notificationsCols : List String :=
  ["id", "userId", "message", "href", "isRead", "timestamp", "entityId", "entityType",
   "taskType", "entityStatus"]

def quoteDraftsCols : List String :=
  ["id", "createdAt", "userId", "customerId", "customerDetails", "lines", "totals", "notes",
   "currency", "exchangeRate", "purchaseOrderNumber", "deliveryAddress", "deliveryDate",
   "sellerName", "sellerType", "quoteDate", "validUntilDate", "paymentTerms", "creditDays"]

def erpOrderHeadersCols : List String :=
  ["PEDIDO", "ESTADO", "CLIENTE", "FECHA_PEDIDO", "FECHA_PROMETIDA", "ORDEN_COMPRA",
   "TOTAL_UNIDADES", "MONEDA_PEDIDO", "USUARIO"]

def erpOrderLinesCols : List String :=
  ["PEDIDO", "PEDIDO_LINEA", "ARTICULO", "CANTIDAD_PEDIDA", "PRECIO_UNITARIO"]

def erpPurchaseOrderHeadersCols : List String :=
  ["ORDEN_COMPRA", "PROVEEDOR", "FECHA_HORA", "ESTADO", "CreatedBy"]

def erpPurchaseOrderLinesCols : List String :=
  ["ORDEN_COMPRA", "ARTICULO", "CANTIDAD_ORDENADA"]

def erpInvoiceHeadersCols : List String :=
  ["CLIENTE", "NOMBRE_CLIENTE", "TIPO_DOCUMENTO", "FACTURA", "PEDIDO", "FACTURA_ORIGINAL",
   "FECHA", "FECHA_ENTREGA", "ANULADA", "EMBARCAR_A", "DIRECCION_FACTURA", "OBSERVACIONES",
   "RUTA", "USUARIO", "USUARIO_ANULA", "ZONA", "VENDEDOR", "REIMPRESO"]

def erpInvoiceLinesCols : List String :=
  ["FACTURA", "TIPO_DOCUMENTO", "LINEA", "BODEGA", "PEDIDO", "ARTICULO", "ANULADA",
   "FECHA_FACTURA", "CANTIDAD", "PRECIO_UNITARIO", "TOTAL_IMPUESTO1", "PRECIO_TOTAL",
   "DESCRIPCION", "DOCUMENTO_ORIGEN", "CANT_DESPACHADA", "ES_CANASTA_BASICA"]

/-- The CREATE TABLE IF NOT EXISTS batch of initializeMainDatabase. -/
def mainSchemaTables (db : DB) : DB :=
  let d := ctine db "users" usersCols ["id"]
  let d := ctine d "roles" ["id", "name", "permissions"] ["id"]
  let d := ctine d "company_settings" companySettingsCols ["id"]
  let d := ctine d "logs" ["id", "timestamp", "type", "message", "details"] ["id"]
  let d := ctine d "api_settings"
    ["id", "exchangeRateApi", "haciendaExemptionApi", "haciendaTributariaApi", "ollamaHost",
     "defaultModel"] ["id"]
  let d := ctine d "customers"
    ["id", "name", "address", "phone", "taxId", "currency", "creditLimit", "paymentCondition",
     "salesperson", "active", "email", "electronicDocEmail"] ["id"]
  let d := ctine d "products"
    ["id", "description", "classification", "lastEntry", "active", "notes", "unit",
     "isBasicGood", "cabys", "barcode"] ["id"]
  let d := ctine d "exemptions"
    ["code", "description", "customer", "authNumber", "startDate", "endDate", "percentage",
     "docType", "institutionName", "institutionCode"] ["code"]
  let d := ctine d "quote_drafts" quoteDraftsCols ["id"]
  let d := ctine d "exemption_laws" ["docType", "institutionName", "authNumber"] ["docType"]
  let d := ctine d "cabys_catalog" ["code", "description", "taxRate"] ["code"]
  let d := ctine d "stock" ["itemId", "stockByWarehouse", "totalStock"] ["itemId"]
  let d := ctine d "sql_config" ["key", "value"] ["key"]
  let d := ctine d "import_queries" ["type", "query"] ["type"]
  let d := ctine d "suggestions"
    ["id", "content", "userId", "userName", "isRead", "timestamp"] ["id"]
  let d := ctine d "user_preferences" ["userId", "key", "value"] ["userId", "key"]
  let d := ctine d "notifications" notificationsCols ["id"]
  let d := ctine d "email_settings" ["key", "value"] ["key"]
  let d := ctine d "suppliers" ["id", "name", "alias", "email", "phone"] ["id"]
  let d := ctine d "erp_order_headers" erpOrderHeadersCols ["PEDIDO"]
  let d := ctine d "erp_order_lines" erpOrderLinesCols ["PEDIDO", "PEDIDO_LINEA"]
  let d := ctine d "erp_purchase_order_headers" erpPurchaseOrderHeadersCols ["ORDEN_COMPRA"]
  let d := ctine d "erp_purchase_order_lines" erpPurchaseOrderLinesCols
    ["ORDEN_COMPRA", "ARTICULO"]
  let d := ctine d "erp_invoice_headers" erpInvoiceHeadersCols ["FACTURA"]
  let d := ctine d "erp_invoice_lines" erpInvoiceLinesCols
    ["FACTURA", "TIPO_DOCUMENTO", "LINEA"]
  let d := ctine d "stock_settings" ["key", "value"] ["key"]
  let d := ctine d "vendedores" ["VENDEDOR", "NOMBRE", "EMPLEADO"] ["VENDEDOR"]
  let d := ctine d "direcciones_embarque"
    ["CLIENTE", "DIRECCION", "DETALLE_DIRECCION", "DESCRIPCION"] ["CLIENTE", "DIRECCION"]
  let d := ctine d "nominas" ["NOMINA", "DESCRIPCION", "TIPO_NOMINA"] ["NOMINA"]
  let d := ctine d "puestos" ["PUESTO", "DESCRIPCION", "ACTIVO"] ["PUESTO"]
  let d := ctine d "departamentos" ["DEPARTAMENTO", "DESCRIPCION", "ACTIVO"] ["DEPARTAMENTO"]
  let d := ctine d "empleados"
    ["EMPLEADO", "NOMBRE", "ACTIVO", "DEPARTAMENTO", "PUESTO", "NOMINA"] ["EMPLEADO"]
  ctine d "vehiculos" ["placa", "marca"] ["placa"]

/-- A role definition as seeded into the roles table. -/
structure Role where
  id : String
  name : String
  permissions : String
deriving DecidableEq, Repr

/-- Modelled from the spec: the default role list (initialRoles) imported from
core/lib/data.ts, which is not under src/; the spec only requires a set of
default role definitions seeded with insert-if-absent semantics. -/
def initialRoles : List Role :=
  [⟨"admin", "Administrador", "[\"all\"]"⟩, ⟨"sales", "Ventas", "[\"quotes\"]"⟩]

/-- Modelled from the spec: the singleton company-settings seed row built from
initialCompany (core/lib/data.ts is not under src/); column order and the
fixed id 1, NULL publicUrl and 0/1 quoterShowTaxId follow the INSERT
statement in initializeMainDatabase. -/
def companySeedRow : Row :=
  [("id", .i 1), ("name", .s "Company"), ("taxId", .s ""), ("address", .s ""),
   ("phone", .s ""), ("email", .s ""), ("systemName", .s "IntraTool"), ("publicUrl", .null),
   ("quotePrefix", .s "COT-"), ("nextQuoteNumber", .i 1), ("decimalPlaces", .i 2),
   ("quoterShowTaxId", .i 1), ("searchDebounceTime", .i 500), ("syncWarningHours", .i 12),
   ("importMode", .s "file")]

/-- The api_settings seed row (the INSERT OR IGNORE of initializeMainDatabase). -/
def apiSeedRow : Row :=
  [("id", .i 1), ("exchangeRateApi", .s "https://api.hacienda.go.cr/indicadores/tc/dolar"),
   ("haciendaExemptionApi", .s "https://api.hacienda.go.cr/fe/ex?autorizacion="),
   ("haciendaTributariaApi", .s "https://api.hacienda.go.cr/fe/ae?identificacion="),
   ("ollamaHost", .s "http://localhost:11434"), ("defaultModel", .s "deepseek-coder-v2")]

/-! ## Main database migrations (checkAndApplyMigrations, core/lib/db.ts) -/

/-- Model of the external bcryptjs hashSync: the only property the source
relies on is that produced hashes carry the "$2a$" version prefix. -/
def bcryptHash (pw : String) : String := "$2a$10$" ++ pw

/-- Character-level prefix test, the semantics of the JS String.startsWith
used by the password migration. -/
def strStartsWith (t p : String) : Bool :=
  p.data.isPrefixOf t.data

/-- The migration's test for a plaintext password: a truthy (non-empty) string
value that does not already start with the bcrypt prefix. -/
def needsHash : Option Val → Bool
  | some (.s t) => !(t = "") && !(strStartsWith t "$2a$")
  | _ => false

/-- The stored text of a password value (used only on values that need hashing). -/
def pwText : Option Val → String
  | some (.s t) => t
  | _ => ""

/-- One conditional migration: an introspection condition, the statement batch
it triggers (none models a thrown SQL error, caught by the outer catch and
aborting the remaining steps), and how many ALTER/CREATE statements it runs. -/
structure MigStep where
  cond : DB → Bool
  act : DB → Option DB
  ddl : Nat

/-- Run the migration steps in order, counting executed ALTER/CREATE
statements; a thrown statement (act = none) aborts the remaining steps while
keeping the progress made so far, mirroring the outer try/catch. -/
def runMigSteps : List MigStep → DB → DB × Nat
  | [], db => (db, 0)
  | s :: rest, db =>
    if s.cond db then
      match s.act db with
      | some db2 =>
        let r := runMigSteps rest db2
        (r.1, s.ddl + r.2)
      | none => (db, 0)
    else runMigSteps rest db

/-- CREATE TABLE guarded by a table-existence check. -/
def createStep (n : String) (cols pk : List String) : MigStep :=
  ⟨fun db => !hasTable db n, fun db => some (createTable db n cols pk), 1⟩

/-- ALTER TABLE ADD COLUMN guarded only by a column check (a PRAGMA snapshot
of a missing table yields no columns, so the ALTER fires and throws). -/
def addColStep (n c : String) : MigStep :=
  ⟨fun db => !hasCol db n c,
   fun db => if hasTable db n then some (addColumn db n c) else none, 1⟩

/-- ALTER TABLE ADD COLUMN with a DEFAULT value, guarded like addColStep. -/
def addColDStep (n c : String) (dflt : Val) : MigStep :=
  ⟨fun db => !hasCol db n c,
   fun db => if hasTable db n then some (addColumnD db n c dflt) else none, 1⟩

/-- ALTER TABLE ADD COLUMN additionally guarded by table existence (the
source only reaches these adds inside an if on the table's presence). -/
def guardedAddColStep (n c : String) : MigStep :=
  ⟨fun db => hasTable db n && !hasCol db n c,
   fun db => if hasTable db n then some (addColumn db n c) else none, 1⟩

/-- The first row of users with id 1 (SELECT role FROM users WHERE id = 1). -/
def usersRow1 (db : DB) : Option Row :=
  match getTable db "users" with
  | some t => t.rows.find? (fun r => decide (aget "id" r = some (.i 1)))
  | none => none

/-- MIGRATION: Ensuring user with ID 1 is an admin (condition). -/
def adminCond (db : DB) : Bool :=
  match usersRow1 db with
  | some r => decide (aget "role" r ≠ some (.s "admin"))
  | none => false

/-- UPDATE users SET role = admin WHERE id = 1. -/
def adminAct (db : DB) : DB :=
  updateRows db "users" (fun r => decide (aget "id" r = some (.i 1)))
    (fun r => setVal r "role" (.s "admin"))

/-- The admin-enforcement migration step (runs an UPDATE, no ALTER/CREATE). -/
def adminStep : MigStep := ⟨adminCond, fun db => some (adminAct db), 0⟩

/-- The password-hashing condition: some stored user password is plaintext. -/
def pwCond (db : DB) : Bool :=
  match getTable db "users" with
  | some t => t.rows.any (fun r => needsHash (aget "password" r))
  | none => false

/-- The one-time password rehash: every plaintext password is rewritten
through the one-way hash (an UPDATE per affected user, no ALTER/CREATE). -/
def pwAct (db : DB) : DB :=
  updateRows db "users" (fun r => needsHash (aget "password" r))
    (fun r => setVal r "password" (.s (bcryptHash (pwText (aget "password" r)))))

/-- The password-hashing migration step. -/
def pwStep : MigStep := ⟨pwCond, fun db => some (pwAct db), 0⟩

/-- MIGRATION: Recreating erp_purchase_order_lines with a composite primary
key: the legacy table is dropped and recreated empty (no row copy). -/
def erpPoLinesRecreateStep : MigStep :=
  ⟨fun db => hasTable db "erp_purchase_order_lines" &&
             !hasCol db "erp_purchase_order_lines" "ORDEN_COMPRA",
   fun db => some (createTable (dropTable db "erp_purchase_order_lines")
     "erp_purchase_order_lines" erpPurchaseOrderLinesCols ["ORDEN_COMPRA", "ARTICULO"]), 1⟩

/-- The migration steps of checkAndApplyMigrations that precede the
admin-role enforcement, in source order. -/
def preAdminSteps : List MigStep :=
  [createStep "notifications" notificationsCols ["id"],
   guardedAddColStep "notifications" "entityId",
   guardedAddColStep "notifications" "entityType",
   guardedAddColStep "notifications" "taskType",
   guardedAddColStep "notifications" "entityStatus",
   createStep "user_preferences" ["userId", "key", "value"] ["userId", "key"],
   createStep "email_settings" ["key", "value"] ["key"],
   addColStep "users" "erpAlias",
   addColDStep "users" "forcePasswordChange" (.i 0),
   addColStep "users" "activeWizardSession",
   addColDStep "company_settings" "decimalPlaces" (.i 2),
   addColDStep "company_settings" "quoterShowTaxId" (.i 1),
   addColDStep "company_settings" "syncWarningHours" (.i 12),
   addColStep "company_settings" "publicUrl",
   ⟨fun db => hasCol db "company_settings" "importPath",
    fun db => some (dropColumn db "company_settings" "importPath"), 1⟩,
   addColStep "company_settings" "customerFilePath",
   addColStep "company_settings" "productFilePath",
   addColStep "company_settings" "exemptionFilePath",
   addColStep "company_settings" "stockFilePath",
   addColStep "company_settings" "locationFilePath",
   addColStep "company_settings" "cabysFilePath",
   addColStep "company_settings" "supplierFilePath",
   addColStep "company_settings" "erpPurchaseOrderHeaderFilePath",
   addColStep "company_settings" "erpPurchaseOrderLineFilePath",
   addColStep "company_settings" "erpInvoiceHeaderFilePath",
   addColStep "company_settings" "erpInvoiceLineFilePath",
   addColDStep "company_settings" "importMode" (.s "file"),
   addColStep "company_settings" "logoUrl",
   addColDStep "company_settings" "searchDebounceTime" (.i 500),
   addColStep "company_settings" "lastSyncTimestamp",
   addColStep "products" "barcode"]

/-- The migration steps of checkAndApplyMigrations that follow the admin-role
enforcement, in source order. -/
def postAdminSteps : List MigStep :=
  [guardedAddColStep "quote_drafts" "userId",
   guardedAddColStep "quote_drafts" "customerId",
   guardedAddColStep "quote_drafts" "lines",
   guardedAddColStep "quote_drafts" "totals",
   guardedAddColStep "quote_drafts" "notes",
   guardedAddColStep "quote_drafts" "currency",
   guardedAddColStep "quote_drafts" "exchangeRate",
   guardedAddColStep "quote_drafts" "purchaseOrderNumber",
   pwStep,
   guardedAddColStep "api_settings" "haciendaExemptionApi",
   guardedAddColStep "api_settings" "haciendaTributariaApi",
   guardedAddColStep "api_settings" "ollamaHost",
   guardedAddColStep "api_settings" "defaultModel",
   createStep "suppliers" ["id", "name", "alias", "email", "phone"] ["id"],
   createStep "erp_order_headers" erpOrderHeadersCols ["PEDIDO"],
   guardedAddColStep "erp_order_headers" "MONEDA_PEDIDO",
   guardedAddColStep "erp_order_headers" "TOTAL_UNIDADES",
   guardedAddColStep "erp_order_headers" "USUARIO",
   createStep "erp_order_lines" erpOrderLinesCols ["PEDIDO", "PEDIDO_LINEA"],
   createStep "erp_purchase_order_headers" erpPurchaseOrderHeadersCols ["ORDEN_COMPRA"],
   guardedAddColStep "erp_purchase_order_headers" "CreatedBy",
   createStep "erp_purchase_order_lines" erpPurchaseOrderLinesCols
     ["ORDEN_COMPRA", "ARTICULO"],
   erpPoLinesRecreateStep,
   createStep "stock_settings" ["key", "value"] ["key"],
   createStep "erp_invoice_headers" erpInvoiceHeadersCols ["FACTURA"],
   createStep "erp_invoice_lines" erpInvoiceLinesCols ["FACTURA", "TIPO_DOCUMENTO", "LINEA"],
   createStep "vendedores" ["VENDEDOR", "NOMBRE", "EMPLEADO"] ["VENDEDOR"],
   createStep "direcciones_embarque" ["CLIENTE", "DIRECCION", "DETALLE_DIRECCION",
     "DESCRIPCION"] ["CLIENTE", "DIRECCION"],
   createStep "nominas" ["NOMINA", "DESCRIPCION", "TIPO_NOMINA"] ["NOMINA"],
   createStep "puestos" ["PUESTO", "DESCRIPCION", "ACTIVO"] ["PUESTO"],
   createStep "departamentos" ["DEPARTAMENTO", "DESCRIPCION", "ACTIVO"] ["DEPARTAMENTO"],
   createStep "empleados" ["EMPLEADO", "NOMBRE", "ACTIVO", "DEPARTAMENTO", "PUESTO",
     "NOMINA"] ["EMPLEADO"],
   createStep "vehiculos" ["placa", "marca"] ["placa"]]

/-- All migration steps of checkAndApplyMigrations, in source order. -/
def mainMigSteps : List MigStep := preAdminSteps ++ adminStep :: postAdminSteps

/-- The main-database migrator: skipped entirely when the users table does not
exist (database not initialized yet); otherwise runs every conditional step.
Returns the migrated database and the number of ALTER/CREATE statements run. -/
def checkAndApplyMigrations (db : DB) : DB × Nat :=
  if hasTable db "users" then runMigSteps mainMigSteps db else (db, 0)

/-- Wrapper matching runMainDbMigrations in the source. -/
def runMainDbMigrations (db : DB) : DB := (checkAndApplyMigrations db).1

/-- Initializes the main database: schema batch, seed rows (insert-if-absent),
then the migration pass that initializeMainDatabase runs at its end. -/
def initializeMainDatabase (db : DB) : DB :=
  let d1 := mainSchemaTables db
  let d2 := initialRoles.foldl (fun d r => insertOrIgnore d "roles"
    [("id", .s r.id), ("name", .s r.name), ("permissions", .s r.permissions)]) d1
  let d3 := insertOrIgnore d2 "company_settings" companySeedRow
  let d4 := insertOrIgnore d3 "api_settings" apiSeedRow
  runMainDbMigrations d4

/-! ## Notifications module (notifications/lib/db.ts) -/

/-- Initializes the notifications database: two CREATE TABLE IF NOT EXISTS
statements plus the default telegram settings row (INSERT OR IGNORE). -/
def initializeNotificationsDb (db : DB) : DB :=
  let d1 := ctine db "notification_rules"
    ["id", "name", "event", "action", "recipients", "subject", "enabled"] ["id"]
  let d2 := ctine d1 "notification_settings" ["service", "config"] ["service"]
  insertOrIgnore d2 "notification_settings"
    [("service", .s "telegram"), ("config", .s "\x7b\"botToken\":\"\",\"chatId\":\"\"\x7d")]

/-- The notifications migrator is an empty placeholder in the source. -/
def runNotificationsMigrations (db : DB) : DB := db

/-! ## Warehouse module (warehouse/lib/db-init.ts) -/

def locationsCols : List String :=
  ["id", "name", "code", "type", "parentId", "isLocked", "lockedBy", "lockedByUserId",
   "lockedAt"]

def dispatchContainersCols : List String :=
  ["id", "name", "createdBy", "createdAt", "isLocked", "lockedBy", "lockedByUserId",
   "lockedAt"]

/-- Recreates a table while preserving its rows: copy into a temporary table,
drop, recreate, copy the listed columns back, inside one transaction. -/
def recreateTableWithCascade (db : DB) (tableName : String)
    (createCols createPk columns : List String) : DB :=
  match getTable db tableName with
  | some t =>
    let saved := t.rows
    let db2 := createTable (dropTable db tableName) tableName createCols createPk
    let copied := saved.map (fun r => columns.map (fun c => (c, (aget c r).getD Val.null)))
    match getTable db2 tableName with
    | some t2 => setTable db2 { t2 with rows := copied }
    | none => db2
  | none => db

/-- The dispatch_containers part of runWarehouseMigrations: two column adds
guarded by the table's presence. -/
def warehouseDispatchStep (db : DB) : DB :=
  if hasTable db "dispatch_containers" then
    let d1 := if hasCol db "dispatch_containers" "lockedByUserId" then db
              else addColumn db "dispatch_containers" "lockedByUserId"
    if hasCol d1 "dispatch_containers" "lockedAt" then d1
    else addColumn d1 "dispatch_containers" "lockedAt"
  else db

/-- The warehouse migrator: adds the locations lock columns when missing (an
ALTER on a missing table or an already-present lockedAt column throws and is
caught, keeping partial progress), then migrates dispatch_containers. -/
def runWarehouseMigrations (db : DB) : DB :=
  if hasCol db "locations" "lockedByUserId" then
    warehouseDispatchStep db
  else if hasTable db "locations" then
    let d1 := addColumn db "locations" "lockedByUserId"
    if hasCol d1 "locations" "lockedAt" then d1
    else warehouseDispatchStep (addColumn d1 "locations" "lockedAt")
  else db

/-- Initializes the warehouse database: the table batch, the default settings
row, then the migration pass the initializer runs at its end. -/
def initializeWarehouseDb (db : DB) : DB :=
  let d := ctine db "locations" locationsCols ["id"]
  let d := ctine d "inventory"
    ["id", "itemId", "locationId", "quantity", "lastUpdated", "updatedBy"] ["id"]
  let d := ctine d "item_locations"
    ["id", "itemId", "locationId", "clientId", "updatedBy", "updatedAt"] ["id"]
  let d := ctine d "inventory_units"
    ["id", "unitCode", "productId", "humanReadableId", "documentId", "locationId",
     "quantity", "notes", "createdAt", "createdBy"] ["id"]
  let d := ctine d "movements"
    ["id", "itemId", "quantity", "fromLocationId", "toLocationId", "timestamp", "userId",
     "notes"] ["id"]
  let d := ctine d "warehouse_config" ["key", "value"] ["key"]
  let d := ctine d "dispatch_logs"
    ["id", "documentId", "documentType", "verifiedAt", "verifiedByUserId",
     "verifiedByUserName", "items", "notes"] ["id"]
  let d := ctine d "dispatch_containers" dispatchContainersCols ["id"]
  let d := ctine d "dispatch_assignments"
    ["id", "containerId", "documentId", "documentType", "documentDate", "clientId",
     "clientName", "assignedBy", "assignedAt", "sortOrder", "status"] ["id"]
  let d := insertOrIgnore d "warehouse_config"
    [("key", .s "settings"), ("value", .s "defaultWarehouseSettingsJson")]
  runWarehouseMigrations d

/-! ## AI module (ai/lib/db.ts) -/

/-- Initializes the AI database (knowledge_base_paths and chat_history). -/
def initializeAiDb (db : DB) : DB :=
  let d1 := ctine db "knowledge_base_paths" ["id", "name", "path"] ["id"]
  ctine d1 "chat_history"
    ["id", "sessionId", "userId", "role", "content", "timestamp"] ["id"]

/-- The AI migrator inspects knowledge_base_paths but applies nothing. -/
def runAiMigrations (db : DB) : DB := db

/-! ## Module registry and external module operations -/

/-- A module descriptor of the registry: unique id slug and storage file. -/
structure DbModule where
  id : String
  dbFile : String
deriving DecidableEq, Repr

/-- Modelled from the spec: the DB_MODULES registry (core/lib/db-modules.ts is
not under src/). Ids are the ones the source dispatches on; file names follow
the spec's storage layout, with exactly one descriptor per file name and the
main module distinguished. -/
def DB_MODULES : List DbModule :=
  [⟨"clic-tools-main", "intratool.db"⟩,
   ⟨"production-planner", "planner.db"⟩,
   ⟨"purchase-requests", "requests.db"⟩,
   ⟨"warehouse-management", "warehouse.db"⟩,
   ⟨"cost-assistant", "cost-assistant.db"⟩,
   ⟨"notifications-engine", "notifications.db"⟩,
   ⟨"ai-engine", "ia.db"⟩]

/-- A migrator either finishes with the migrated database or throws; a thrown
migration carries the database state reached before the failure, since the
source migrators mutate the handle in place (partial progress is kept). -/
abbrev Migrator := DB → Except (String × DB) DB

/-- The initializers and migrators of the planner, requests and cost-assistant
modules, whose source files are not under src/; connectDb and runMigrations
are parameterized over them. -/
structure ExtOps where
  initPlanner : DB → DB
  migratePlanner : Migrator
  initRequests : DB → DB
  migrateRequests : Migrator
  initCostAssistant : DB → DB
  migrateCostAssistant : Migrator

/-- Modelled from the spec: default concrete operations for the three modules
missing from src/, following the common initializer/migrator pattern
(CREATE TABLE IF NOT EXISTS batch; no pending migrations). -/
def defaultExt : ExtOps where
  initPlanner := fun db => ctine db "production_orders"
    ["id", "status", "productId", "quantity", "deliveryDate"] ["id"]
  migratePlanner := fun db => .ok db
  initRequests := fun db => ctine db "purchase_requests"
    ["id", "status", "itemId", "quantity", "requiredDate"] ["id"]
  migrateRequests := fun db => .ok db
  initCostAssistant := fun db => ctine db "cost_sessions"
    ["id", "name", "createdAt", "data"] ["id"]
  migrateCostAssistant := fun db => .ok db

/-- The initializer dispatch of connectDb (the if-else chain on module ids);
an unknown id runs no initializer. -/
def initializerFor (ext : ExtOps) (id : String) (db : DB) : DB :=
  if id = "clic-tools-main" then initializeMainDatabase db
  else if id = "purchase-requests" then ext.initRequests db
  else if id = "production-planner" then ext.initPlanner db
  else if id = "warehouse-management" then initializeWarehouseDb db
  else if id = "cost-assistant" then ext.initCostAssistant db
  else if id = "notifications-engine" then initializeNotificationsDb db
  else if id = "ai-engine" then initializeAiDb db
  else db

/-- The migration dispatch of runMigrations (the switch on module ids); the
in-repo migrators never throw, so they are wrapped as succeeding migrators. -/
def migrationFnFor (ext : ExtOps) (id : String) : Option Migrator :=
  if id = "clic-tools-main" then some (fun db => .ok (runMainDbMigrations db))
  else if id = "purchase-requests" then some ext.migrateRequests
  else if id = "production-planner" then some ext.migratePlanner
  else if id = "warehouse-management" then some (fun db => .ok (runWarehouseMigrations db))
  else if id = "cost-assistant" then some ext.migrateCostAssistant
  else if id = "notifications-engine" then some (fun db => .ok (runNotificationsMigrations db))
  else if id = "ai-engine" then some (fun db => .ok (runAiMigrations db))
  else none

/-- runMigrations: resolves the module's migrator and runs it, catching a
thrown migration (the handle keeps the state reached before the failure). -/
def runMigrationsSafe (ext : ExtOps) (id : String) (db : DB) : DB :=
  match migrationFnFor ext id with
  | none => db
  | some f =>
    match f db with
    | .ok d => d
    | .error e => e.2

/-! ## Connection manager world (connectDb, core/lib/db.ts) -/

/-- What a stored file looks like to the database engine when opened: a
well-formed database, a corrupt file (open throws SQLITE_CORRUPT), or a file
that fails to open for any other reason (permissions, disk errors). -/
inductive FileContent where
  | dbFile (d : DB)
  | corrupt
  | unreadable (msg : String)
deriving DecidableEq, Repr

/-- An open or closed better-sqlite3 handle: its file name, open flag, the
database content it gives access to, the journal-mode flag, and the auxiliary
schemas currently attached (alias paired with the attached file path). -/
structure HandleState where
  file : String
  isOpen : Bool
  db : DB
  walMode : Bool
  attached : List (String × String)
deriving DecidableEq, Repr

/-- The process-wide state: the dbs/ directory (keyed by path), the
dbConnections cache (file name to handle id), the allocated handles, the
next fresh handle id, and the current clock for quarantine names. -/
structure DbWorld where
  fs : List (String × FileContent)
  cache : List (String × Nat)
  handles : List (Nat × HandleState)
  nextId : Nat
  nowMillis : Nat
deriving DecidableEq, Repr

/-- The errors that can escape the subsystem: a non-corruption open failure,
a malformed/failing federated statement (with its SQL text), or a failing
ATTACH statement (with the offending alias). -/
inductive DbErr where
  | openError (msg : String)
  | stmtError (sql msg : String)
  | attachError (alias2 : String)
deriving DecidableEq, Repr

/-- The path of a database file inside the storage directory. -/
def dbPath (f : String) : String := "dbs/" ++ f

/-- The main database file name (DB_FILE). -/
def DB_FILE : String := "intratool.db"

/-- The cache fast path of connectDb: a cached open handle is returned
immediately unless recreation is forced. -/
def fastPath (w : DbWorld) (dbFile : String) (forceRecreate : Bool) : Option Nat :=
  if forceRecreate then none
  else match aget dbFile w.cache with
    | some id =>
      match aget id w.handles with
      | some h => if h.isOpen then some id else none
      | none => none
    | none => none

/-- The eviction step of connectDb: a cached handle (open or closed) is
closed when open and removed from the cache. -/
def evictCached (w : DbWorld) (dbFile : String) : DbWorld :=
  match aget dbFile w.cache with
  | some id =>
    let handles2 :=
      match aget id w.handles with
      | some h => if h.isOpen then aset id { h with isOpen := false } w.handles
                  else w.handles
      | none => w.handles
    { w with handles := handles2, cache := adel dbFile w.cache }
  | none => w

/-- The forced-recreation step: the existing file is deleted unconditionally. -/
def forceDelete (w : DbWorld) (p : String) (forceRecreate : Bool) : DbWorld :=
  if forceRecreate && (aget p w.fs).isSome then { w with fs := adel p w.fs } else w

/-- Opening the database file: an absent file is created empty; a corrupt
file is renamed to the timestamped quarantine name and replaced by a fresh
empty file, with the existed-flag forced to false; any other open failure is
the thrown error.  Returns the content, the existed-flag and the updated
directory. -/
def openFile (w : DbWorld) (p : String) :
    Except String (DB × Bool × List (String × FileContent)) :=
  match aget p w.fs with
  | none => .ok ([], false, aset p (.dbFile []) w.fs)
  | some (.dbFile d) => .ok (d, true, w.fs)
  | some .corrupt =>
    let backupPath := p ++ ".corrupt." ++ toString w.nowMillis
    .ok ([], false, aset p (.dbFile []) (aset backupPath .corrupt (adel p w.fs)))
  | some (.unreadable msg) => .error msg

/-- The module setup of connectDb: when a descriptor matches the file name,
the initializer runs on first creation and the migrator always runs
(best-effort); without a descriptor the content is untouched. -/
def setupModule (ext : ExtOps) (dbFile : String) (dbExists : Bool) (d0 : DB) : DB :=
  match DB_MODULES.find? (fun m => m.dbFile = dbFile) with
  | some m =>
    let d1 := if dbExists then d0 else initializerFor ext m.id d0
    runMigrationsSafe ext m.id d1
  | none => d0

/-- The tail of connectDb: journal mode applied to the fresh handle, the
handle registered in the cache, the file content synchronized. -/
def finishConnect (w : DbWorld) (dbFile p : String)
    (fs2 : List (String × FileContent)) (d2 : DB) : Except DbErr Nat × DbWorld :=
  let id := w.nextId
  let h : HandleState :=
    { file := dbFile, isOpen := true, db := d2, walMode := true, attached := [] }
  (.ok id,
   { fs := aset p (.dbFile d2) fs2,
     cache := aset dbFile id w.cache,
     handles := aset id h w.handles,
     nextId := id + 1,
     nowMillis := w.nowMillis })

/-- The cold path of connectDb: eviction, optional forced deletion, file
open (with corruption quarantine), module setup, handle registration. -/
def coldConnect (ext : ExtOps) (w : DbWorld) (dbFile : String) (forceRecreate : Bool) :
    Except DbErr Nat × DbWorld :=
  let w1 := evictCached w dbFile
  let p := dbPath dbFile
  let w2 := forceDelete w1 p forceRecreate
  match openFile w2 p with
  | .error msg => (.error (.openError msg), w2)
  | .ok (d0, dbExists, fs2) => finishConnect w2 dbFile p fs2 (setupModule ext dbFile dbExists d0)

/-- Establishes a connection to a database file, mirroring connectDb: cache
fast path, eviction of closed or superseded handles, forced deletion,
open with corruption quarantine, module initialization on first creation,
best-effort migrations, journal mode, and cache insertion.  Errors are
returned together with the world as mutated up to the throw. -/
def connectDb (ext : ExtOps) (w : DbWorld) (dbFile : String) (forceRecreate : Bool) :
    Except DbErr Nat × DbWorld :=
  match fastPath w dbFile forceRecreate with
  | some id => (.ok id, w)
  | none => coldConnect ext w dbFile forceRecreate

/-! ## Cross-database query executor (queryLocalDb, core/lib/db.ts) -/

/-- The schema alias of a module id: hyphens normalized to underscores. -/
def aliasOf (id : String) : String :=
  ⟨id.data.map (fun c => if c = '-' then '_' else c)⟩

/-- The semantics of one caller-supplied SQL statement: given the main
database and the attached schemas it either fails (malformed or failing SQL)
or produces result rows and the possibly mutated main database. -/
structure SqlStmt where
  text : String
  run : DB → List (String × DB) → Except String (List Row × DB)

/-- Executes ATTACH DATABASE path AS alias2 on a handle: fails when the alias
is already in use or the target file cannot be opened; otherwise records the
attachment on the handle. -/
def attachAux (w : DbWorld) (hid : Nat) (alias2 path : String) : Except DbErr DbWorld :=
  match aget hid w.handles with
  | none => .error (.attachError alias2)
  | some h =>
    if h.attached.any (fun ap => ap.1 = alias2) then .error (.attachError alias2)
    else
      match aget path w.fs with
      | some (.unreadable _) => .error (.attachError alias2)
      | _ =>
        let h2 := { h with attached := h.attached ++ [(alias2, path)] }
        .ok { w with handles := aset hid h2 w.handles }

/-- The attach loop of queryLocalDb: every non-main module whose file exists
on disk is attached; the loop is not guarded, so a failing ATTACH stops it
and the error is reported with the partially attached world. -/
def attachLoop (w : DbWorld) (hid : Nat) : List DbModule → Option DbErr × DbWorld
  | [] => (none, w)
  | m :: rest =>
    if (aget (dbPath m.dbFile) w.fs).isSome then
      match attachAux w hid (aliasOf m.id) (dbPath m.dbFile) with
      | .error e => (some e, w)
      | .ok w2 => attachLoop w2 hid rest
    else attachLoop w hid rest

/-- One DETACH DATABASE alias2: removes the attachment when present; a DETACH
of an alias that is not attached throws, which the caller ignores. -/
def detachAux (w : DbWorld) (hid : Nat) (alias2 : String) : DbWorld :=
  match aget hid w.handles with
  | none => w
  | some h =>
    if h.attached.any (fun ap => ap.1 = alias2) then
      let h2 := { h with attached := h.attached.filter (fun ap => ap.1 ≠ alias2) }
      { w with handles := aset hid h2 w.handles }
    else w

/-- The finally block of queryLocalDb: best-effort DETACH of every module
alias, individual failures ignored. -/
def detachAll (w : DbWorld) (hid : Nat) (mods : List DbModule) : DbWorld :=
  mods.foldl (fun wa m => detachAux wa hid (aliasOf m.id)) w

/-- The auxiliary-schema view a federated statement executes against. -/
def attachedView (w : DbWorld) (h : HandleState) : List (String × DB) :=
  h.attached.filterMap (fun ap =>
    match aget ap.2 w.fs with
    | some (.dbFile d) => some (ap.1, d)
    | _ => none)

/-- Executes one federated query, mirroring queryLocalDb: main connection via
connectDb, unguarded attach loop over every other existing module file, the
caller statement inside try/catch (errors logged and re-thrown), and the
finally block that detaches every module alias best-effort. -/
def queryLocalDb (ext : ExtOps) (w : DbWorld) (stmt : SqlStmt) :
    Except DbErr (List Row) × DbWorld :=
  match connectDb ext w DB_FILE false with
  | (.error e, w1) => (.error e, w1)
  | (.ok hid, w1) =>
    let allModuleDbs := DB_MODULES.filter (fun m => m.id ≠ "clic-tools-main")
    match attachLoop w1 hid allModuleDbs with
    | (some e, w2) => (.error e, w2)
    | (none, w2) =>
      match aget hid w2.handles with
      | none => (.error (.stmtError stmt.text "handle missing"), w2)
      | some h =>
        match stmt.run h.db (attachedView w2 h) with
        | .error msg =>
          (.error (.stmtError stmt.text msg), detachAll w2 hid allModuleDbs)
        | .ok (rows, mainDb2) =>
          let w3 : DbWorld :=
            { w2 with handles := aset hid { h with db := mainDb2 } w2.handles,
                      fs := aset (dbPath DB_FILE) (.dbFile mainDb2) w2.fs }
          (.ok rows, detachAll w3 hid allModuleDbs)

/-! ## Generic lemmas about the migration runner -/

theorem runMigSteps_noop (steps : List MigStep) (db : DB)
    (h : ∀ s ∈ steps, s.cond db = false) : runMigSteps steps db = (db, 0) := by
  induction steps with
  | nil => rfl
  | cons s rest ih =>
    have hs : s.cond db = false := h s (List.mem_cons_self s rest)
    simp only [runMigSteps, hs, Bool.false_eq_true, if_false]
    exact ih (fun s2 hs2 => h s2 (List.mem_cons_of_mem s hs2))

theorem runMigSteps_preserves (Q : DB → Prop) :
    ∀ (steps : List MigStep) (db : DB),
      (∀ s ∈ steps, ∀ d d2, Q d → s.act d = some d2 → Q d2) →
      Q db → Q (runMigSteps steps db).1 := by
  intro steps
  induction steps with
  | nil => intro db _ hdb; exact hdb
  | cons s rest ih =>
    intro db hact hdb
    simp only [runMigSteps]
    by_cases hc : s.cond db = true
    · simp only [hc, if_true]
      cases hact2 : s.act db with
      | none => exact hdb
      | some db2 =>
        have hq2 : Q db2 := hact s (List.mem_cons_self s rest) db db2 hdb hact2
        exact ih db2 (fun s2 hs2 => hact s2 (List.mem_cons_of_mem s hs2)) hq2
    · simp only [Bool.not_eq_true] at hc
      simp only [hc, Bool.false_eq_true, if_false]
      exact ih db (fun s2 hs2 => hact s2 (List.mem_cons_of_mem s hs2)) hdb

theorem runMigSteps_append_total (R : DB → Prop) :
    ∀ (l1 : List MigStep) (l2 : List MigStep) (db : DB),
      (∀ s ∈ l1, ∀ d d2, R d → s.act d = some d2 → R d2) →
      (∀ s ∈ l1, ∀ d, R d → s.cond d = true → (s.act d).isSome) →
      R db →
      (runMigSteps (l1 ++ l2) db).1 = (runMigSteps l2 (runMigSteps l1 db).1).1 ∧
        R (runMigSteps l1 db).1 := by
  intro l1
  induction l1 with
  | nil => intro l2 db _ _ hdb; exact ⟨rfl, hdb⟩
  | cons s rest ih =>
    intro l2 db hpres htot hdb
    simp only [List.cons_append, runMigSteps]
    by_cases hc : s.cond db = true
    · simp only [hc, if_true]
      cases hact2 : s.act db with
      | none =>
        have := htot s (List.mem_cons_self s rest) db hdb hc
        rw [hact2] at this
        simp at this
      | some db2 =>
        have hq2 : R db2 := hpres s (List.mem_cons_self s rest) db db2 hdb hact2
        have hrec := ih l2 db2 (fun s2 hs2 => hpres s2 (List.mem_cons_of_mem s hs2))
          (fun s2 hs2 => htot s2 (List.mem_cons_of_mem s hs2)) hq2
        exact ⟨hrec.1, hrec.2⟩
    · simp only [Bool.not_eq_true] at hc
      simp only [hc, Bool.false_eq_true, if_false]
      exact ih l2 db (fun s2 hs2 => hpres s2 (List.mem_cons_of_mem s hs2))
        (fun s2 hs2 => htot s2 (List.mem_cons_of_mem s hs2)) hdb

/-- The introspected schema is current: the users table exists and no
conditional migration step finds anything to do. -/
def mainSchemaCurrent (db : DB) : Bool :=
  hasTable db "users" && mainMigSteps.all (fun s => !(s.cond db))

/-! ## Table-level lemmas -/

theorem getTable_dropTable_self (db : DB) (n : String) :
    getTable (dropTable db n) n = none := by
  induction db with
  | nil => rfl
  | cons t rest ih =>
    by_cases h : t.name = n
    · simp only [dropTable] at ih ⊢
      simp [getTable, List.filter, h] at ih ⊢
    · simp only [dropTable] at ih ⊢
      simp [getTable, List.filter, List.find?, h] at ih ⊢

theorem getTable_createTable_self_of_none (db : DB) (n : String) (cols pk : List String)
    (h : getTable db n = none) :
    getTable (createTable db n cols pk) n = some ⟨n, cols, pk, []⟩ := by
  induction db with
  | nil => simp [createTable, getTable, List.find?]
  | cons t rest ih =>
    by_cases ht : t.name = n
    · simp [getTable, List.find?, ht] at h
    · have h2 : getTable rest n = none := by simpa [getTable, List.find?, ht] using h
      simpa [createTable, getTable, List.find?, ht] using ih h2

theorem getTable_setTable_self (db : DB) (n : String) (t t2 : Table)
    (h : getTable db n = some t) (hn : t2.name = n) :
    getTable (setTable db t2) n = some t2 := by
  induction db with
  | nil => simp [getTable, List.find?] at h
  | cons t3 rest ih =>
    by_cases h3 : t3.name = n
    · have heq : t3.name = t2.name := by rw [h3, hn]
      simp [setTable, getTable, List.find?, heq, hn]
    · have hneq : ¬ t3.name = t2.name := fun hh => h3 (hh.trans hn)
      have h2 : getTable rest n = some t := by simpa [getTable, List.find?, h3] using h
      simpa [setTable, getTable, List.find?, hneq, h3] using ih h2

theorem getTable_name (db : DB) (n : String) (t : Table) (h : getTable db n = some t) :
    t.name = n := by
  have := List.find?_some h
  simpa using this

/-! ## C6: initializer idempotence -/

/-- C6: for every module's Initializer, running it twice on a fresh database
produces exactly the state of running it once: same table set, same seed
rows, no duplicate seeds (initialization is idempotent; planner, requests and
cost-assistant use the spec-modelled initializers of defaultExt). -/
theorem initializer_idempotent_on_fresh :
    initializeMainDatabase (initializeMainDatabase []) = initializeMainDatabase [] ∧
    initializeNotificationsDb (initializeNotificationsDb []) = initializeNotificationsDb [] ∧
    initializeWarehouseDb (initializeWarehouseDb []) = initializeWarehouseDb [] ∧
    initializeAiDb (initializeAiDb []) = initializeAiDb [] ∧
    defaultExt.initPlanner (defaultExt.initPlanner []) = defaultExt.initPlanner [] ∧
    defaultExt.initRequests (defaultExt.initRequests []) = defaultExt.initRequests [] ∧
    defaultExt.initCostAssistant (defaultExt.initCostAssistant []) =
      defaultExt.initCostAssistant [] := by
  refine ⟨?_, ?_, ?_, ?_, ?_, ?_, ?_⟩ <;> decide

/-! ## C7: migration convergence -/

theorem bcrypt_hash_marker (x : String) :
    strStartsWith ("$2a$10$" ++ x) "$2a$" = true := by
  simp only [strStartsWith, String.data_append]
  show List.isPrefixOf ['$', '2', 'a', '$'] (['$', '2', 'a', '$', '1', '0', '$'] ++ x.data) = true
  simp [List.isPrefixOf]

/-- C7: when the introspected schema is already current the migrator performs
zero ALTER/CREATE statements and leaves the database unchanged; and the
one-time password rehash is self-terminating: after one application its
triggering condition no longer holds. -/
theorem migration_convergence :
    (∀ db : DB, mainSchemaCurrent db = true → checkAndApplyMigrations db = (db, 0)) ∧
    (∀ db : DB, pwCond (pwAct db) = false) := by
  constructor
  · intro db h
    simp only [mainSchemaCurrent, Bool.and_eq_true, List.all_eq_true] at h
    obtain ⟨hu, hall⟩ := h
    simp only [checkAndApplyMigrations, hu, if_true]
    exact runMigSteps_noop _ _ (fun s hs => by simpa using hall s hs)
  · intro db
    cases hg : getTable db "users" with
    | none =>
      have hact : pwAct db = db := by simp [pwAct, updateRows, hg]
      rw [hact]
      simp [pwCond, hg]
    | some t =>
      have hact : pwAct db = setTable db { t with rows := t.rows.map (fun r =>
          if needsHash (aget "password" r) then
            setVal r "password" (.s (bcryptHash (pwText (aget "password" r)))) else r) } := by
        simp [pwAct, updateRows, hg]
      rw [hact]
      have hset := getTable_setTable_self db "users" t { t with rows := t.rows.map (fun r =>
          if needsHash (aget "password" r) then
            setVal r "password" (.s (bcryptHash (pwText (aget "password" r)))) else r) }
        hg (getTable_name db "users" t hg)
      simp only [pwCond, hset]
      rw [List.any_eq_false]
      intro r hr
      simp only [List.mem_map] at hr
      obtain ⟨r0, hr0mem, hr0⟩ := hr
      by_cases hcase : needsHash (aget "password" r0) = true
      · rw [if_pos hcase] at hr0
        subst hr0
        simp only [setVal]
        rw [aget_aset_self]
        simp only [needsHash, bcryptHash]
        rw [bcrypt_hash_marker]
        simp
      · rw [if_neg hcase] at hr0
        subst hr0
        simp [hcase]

/-! ## C8: table recreation and row preservation -/

/-- A legacy main database: initialized far enough for the migrator to run
(users, company_settings, products present), with an erp_purchase_order_lines
table of the legacy shape (no ORDEN_COMPRA column) holding one row. -/
def c8LegacyDb : DB :=
  [⟨"users", ["id", "password", "role"], ["id"], []⟩,
   ⟨"company_settings", companySettingsCols, ["id"], []⟩,
   ⟨"products", ["id", "barcode"], ["id"], []⟩,
   ⟨"erp_purchase_order_lines", ["ARTICULO", "CANTIDAD_ORDENADA"], ["ARTICULO"],
     [[("ARTICULO", .s "A1"), ("CANTIDAD_ORDENADA", .i 5)]]⟩]

/-- C8 counterexample: the core migrator's recreation of
erp_purchase_order_lines (legacy primary-key shape) does NOT preserve the
existing rows: the table held one row before the migration and is empty
afterwards, refuting the claim that every drop-recreate migration copies the
rows through a temporary table. -/
theorem erpPoLines_recreate_loses_rows :
    (getTable c8LegacyDb "erp_purchase_order_lines").map Table.rows =
      some [[("ARTICULO", Val.s "A1"), ("CANTIDAD_ORDENADA", Val.i 5)]] ∧
    (getTable (checkAndApplyMigrations c8LegacyDb).1 "erp_purchase_order_lines").map
      Table.rows = some [] := by decide

/-- C8 amended: the warehouse migrator's recreateTableWithCascade does
preserve all existing rows (copied through the temporary table) whenever the
copied column list reproduces each stored row. -/
theorem recreateTableWithCascade_preserves_rows (db : DB) (n : String)
    (cols pk columns : List String) (t : Table)
    (ht : getTable db n = some t)
    (hproj : ∀ r ∈ t.rows, columns.map (fun c => (c, (aget c r).getD Val.null)) = r) :
    getTable (recreateTableWithCascade db n cols pk columns) n =
      some ⟨n, cols, pk, t.rows⟩ := by
  have hdrop : getTable (dropTable db n) n = none := getTable_dropTable_self db n
  have hcreate := getTable_createTable_self_of_none (dropTable db n) n cols pk hdrop
  have hmap : t.rows.map (fun r => columns.map (fun c => (c, (aget c r).getD Val.null))) =
      t.rows := by
    have := List.map_congr_left (f := fun r => columns.map
      (fun c => (c, (aget c r).getD Val.null))) (g := id) hproj
    simpa using this
  unfold recreateTableWithCascade
  rw [ht]
  simp only [hcreate]
  have hfinal := getTable_setTable_self (createTable (dropTable db n) n cols pk) n
    ⟨n, cols, pk, []⟩
    ⟨n, cols, pk, t.rows.map (fun r => columns.map (fun c => (c, (aget c r).getD Val.null)))⟩
    hcreate rfl
  rw [hfinal, hmap]

/-- A concrete warehouse-style table used to instantiate the amended C8. -/
def c8WitnessDb : DB :=
  [⟨"inventory", ["id", "itemId"], ["id"], [[("id", .i 1), ("itemId", .s "X")]]⟩]

/-- Witness for the amended C8 at a concrete table: the hypothesis holds and
the recreated table keeps its single row. -/
theorem recreateTableWithCascade_preserves_rows_witness :
    (getTable c8WitnessDb "inventory" =
      some ⟨"inventory", ["id", "itemId"], ["id"], [[("id", .i 1), ("itemId", .s "X")]]⟩) ∧
    getTable (recreateTableWithCascade c8WitnessDb "inventory" ["id", "itemId", "extra"]
        ["id"] ["id", "itemId"]) "inventory" =
      some ⟨"inventory", ["id", "itemId", "extra"], ["id"],
        [[("id", .i 1), ("itemId", .s "X")]]⟩ :=
  ⟨by decide,
   recreateTableWithCascade_preserves_rows c8WitnessDb "inventory"
     ["id", "itemId", "extra"] ["id"] ["id", "itemId"]
     ⟨"inventory", ["id", "itemId"], ["id"], [[("id", .i 1), ("itemId", .s "X")]]⟩
     (by decide) (by decide)⟩

/-! ## C10 support: how migration actions move the users table -/

theorem aget_append_single_ne {α β : Type} [DecidableEq α] (k c : α) (v : β)
    (l : List (α × β)) (h : c ≠ k) : aget k (l ++ [(c, v)]) = aget k l := by
  induction l with
  | nil => simp [aget, h]
  | cons p rest ih =>
    by_cases hp : p.1 = k
    · simp [aget, hp]
    · simpa [aget, hp] using ih

theorem find?_congr2 {α : Type} (p q : α → Bool) (l : List α) (h : ∀ x ∈ l, p x = q x) :
    l.find? p = l.find? q := by
  induction l with
  | nil => rfl
  | cons a rest ih =>
    have ha := h a (List.mem_cons_self a rest)
    simp only [List.find?, ha]
    cases hq : q a with
    | true => rfl
    | false => exact ih (fun x hx => h x (List.mem_cons_of_mem a hx))

theorem getTable_createTable_of_some (db : DB) (n : String) (cols pk : List String)
    (n2 : String) (t : Table) (h : getTable db n2 = some t) :
    getTable (createTable db n cols pk) n2 = some t := by
  induction db with
  | nil => simp [getTable, List.find?] at h
  | cons t3 rest ih =>
    by_cases h3 : t3.name = n2
    · have heq : t3 = t := by simpa [getTable, List.find?, h3] using h
      subst heq
      simp [createTable, getTable, List.find?, h3]
    · have h2 : getTable rest n2 = some t := by simpa [getTable, List.find?, h3] using h
      simpa [createTable, getTable, List.find?, h3] using ih h2

theorem hasTable_createTable_of (db : DB) (n : String) (cols pk : List String)
    (n2 : String) (h : hasTable db n2 = true) :
    hasTable (createTable db n cols pk) n2 = true := by
  simp only [hasTable, Option.isSome_iff_exists] at h ⊢
  obtain ⟨t, ht⟩ := h
  exact ⟨t, getTable_createTable_of_some db n cols pk n2 t ht⟩

theorem hasTable_setTable (db : DB) (t : Table) (n2 : String) :
    hasTable (setTable db t) n2 = hasTable db n2 := by
  simp only [hasTable, getTable, setTable]
  rw [List.find?_map, Option.isSome_map']
  have hcg := find?_congr2
    ((fun x : Table => decide (x.name = n2)) ∘ (fun t2 => if t2.name = t.name then t else t2))
    (fun x : Table => decide (x.name = n2)) db
    (fun t2 _ => by by_cases h : t2.name = t.name <;> simp [Function.comp, h])
  rw [hcg]

theorem getTable_setTable_ne (db : DB) (t : Table) (n2 : String) (h : t.name ≠ n2) :
    getTable (setTable db t) n2 = getTable db n2 := by
  simp only [getTable, setTable]
  rw [List.find?_map]
  have hcg := find?_congr2
    ((fun x : Table => decide (x.name = n2)) ∘ (fun t2 => if t2.name = t.name then t else t2))
    (fun x : Table => decide (x.name = n2)) db
    (fun t2 _ => by by_cases h2 : t2.name = t.name <;> simp [Function.comp, h2])
  rw [hcg]
  cases hf : db.find? (fun x : Table => decide (x.name = n2)) with
  | none => rfl
  | some t3 =>
    have hname : t3.name = n2 := by
      have := List.find?_some hf
      simpa using this
    have : ¬ t3.name = t.name := by rw [hname]; exact fun hh => h hh.symm
    simp [this]

theorem getTable_addColumnD_ne (db : DB) (n c : String) (v : Val) (n2 : String)
    (h : n ≠ n2) : getTable (addColumnD db n c v) n2 = getTable db n2 := by
  simp only [addColumnD]
  cases hg : getTable db n with
  | none => rfl
  | some t =>
    have hn : t.name = n := getTable_name db n t hg
    exact getTable_setTable_ne db _ n2 (by simpa [hn] using h)

theorem hasTable_addColumnD (db : DB) (n c : String) (v : Val) (n2 : String) :
    hasTable (addColumnD db n c v) n2 = hasTable db n2 := by
  simp only [addColumnD]
  cases hg : getTable db n with
  | none => rfl
  | some t => exact hasTable_setTable db _ n2

theorem getTable_dropColumn_ne (db : DB) (n c : String) (n2 : String) (h : n ≠ n2) :
    getTable (dropColumn db n c) n2 = getTable db n2 := by
  simp only [dropColumn]
  cases hg : getTable db n with
  | none => rfl
  | some t =>
    have hn : t.name = n := getTable_name db n t hg
    exact getTable_setTable_ne db _ n2 (by simpa [hn] using h)

theorem hasTable_dropColumn (db : DB) (n c : String) (n2 : String) :
    hasTable (dropColumn db n c) n2 = hasTable db n2 := by
  simp only [dropColumn]
  cases hg : getTable db n with
  | none => rfl
  | some t => exact hasTable_setTable db _ n2

theorem getTable_updateRows_ne (db : DB) (n : String) (p : Row → Bool) (f : Row → Row)
    (n2 : String) (h : n ≠ n2) : getTable (updateRows db n p f) n2 = getTable db n2 := by
  simp only [updateRows]
  cases hg : getTable db n with
  | none => rfl
  | some t =>
    have hn : t.name = n := getTable_name db n t hg
    exact getTable_setTable_ne db _ n2 (by simpa [hn] using h)

theorem hasTable_updateRows (db : DB) (n : String) (p : Row → Bool) (f : Row → Row)
    (n2 : String) : hasTable (updateRows db n p f) n2 = hasTable db n2 := by
  simp only [updateRows]
  cases hg : getTable db n with
  | none => rfl
  | some t => exact hasTable_setTable db _ n2

theorem getTable_dropTable_ne (db : DB) (n n2 : String) (h : n ≠ n2) :
    getTable (dropTable db n) n2 = getTable db n2 := by
  induction db with
  | nil => rfl
  | cons t3 rest ih =>
    by_cases h3 : t3.name = n
    · have hne : ¬ t3.name = n2 := by rw [h3]; exact h
      simp only [dropTable] at ih ⊢
      simpa [getTable, List.filter, List.find?, h3, hne, h] using ih
    · by_cases hn2 : t3.name = n2
      · simp [dropTable, getTable, List.filter, List.find?, h3, hn2, Ne.symm h]
      · simp only [dropTable] at ih ⊢
        simpa [getTable, List.filter, List.find?, h3, hn2] using ih

theorem hasTable_createTable (db : DB) (n : String) (cols pk : List String) (n2 : String)
    (h : hasTable db n2 = true) : hasTable (createTable db n cols pk) n2 = true :=
  hasTable_createTable_of db n cols pk n2 h

theorem usersRow1_createTable (db : DB) (n : String) (cols pk : List String)
    (h : hasTable db "users" = true) :
    usersRow1 (createTable db n cols pk) = usersRow1 db := by
  simp only [hasTable, Option.isSome_iff_exists] at h
  obtain ⟨t, ht⟩ := h
  simp only [usersRow1, ht, getTable_createTable_of_some db n cols pk "users" t ht]

theorem usersRow1_getTable_ne (db db2 : DB)
    (h : getTable db2 "users" = getTable db "users") :
    usersRow1 db2 = usersRow1 db := by
  simp only [usersRow1, h]

theorem usersRow1_addColumnD_users (db : DB) (c : String) (v : Val) (hc : c ≠ "id") :
    usersRow1 (addColumnD db "users" c v) =
      (usersRow1 db).map (fun r => r ++ [(c, v)]) := by
  cases hg : getTable db "users" with
  | none => simp [addColumnD, hg, usersRow1]
  | some t =>
    have hname := getTable_name db "users" t hg
    have hset := getTable_setTable_self db "users" t
      { t with cols := t.cols ++ [c], rows := t.rows.map (fun r => r ++ [(c, v)]) } hg hname
    simp only [addColumnD, hg, usersRow1, hset]
    rw [List.find?_map]
    have hcg := find?_congr2
      ((fun r : Row => decide (aget "id" r = some (Val.i 1))) ∘ (fun r => r ++ [(c, v)]))
      (fun r : Row => decide (aget "id" r = some (Val.i 1))) t.rows
      (fun r _ => by simp [Function.comp, aget_append_single_ne _ c v r hc])
    rw [hcg]

theorem usersRow1_updateRows_users (db : DB) (p0 : Row → Bool) (f : Row → Row)
    (hid : ∀ r, aget "id" (if p0 r then f r else r) = aget "id" r) :
    usersRow1 (updateRows db "users" p0 f) =
      (usersRow1 db).map (fun r => if p0 r then f r else r) := by
  cases hg : getTable db "users" with
  | none => simp [updateRows, hg, usersRow1]
  | some t =>
    have hname := getTable_name db "users" t hg
    have hset := getTable_setTable_self db "users" t
      { t with rows := t.rows.map (fun r => if p0 r then f r else r) } hg hname
    simp only [updateRows, hg, usersRow1, hset]
    rw [List.find?_map]
    have hcg := find?_congr2
      ((fun r : Row => decide (aget "id" r = some (Val.i 1))) ∘
        (fun r => if p0 r then f r else r))
      (fun r : Row => decide (aget "id" r = some (Val.i 1))) t.rows
      (fun r _ => by simp [Function.comp, hid r])
    rw [hcg]

/-- The precondition threaded through the steps preceding the admin-role
enforcement: the three tables whose unguarded ALTERs must not throw exist,
and a users row with id 1 exists. -/
def PreP (db : DB) : Prop :=
  hasTable db "users" = true ∧ hasTable db "company_settings" = true ∧
  hasTable db "products" = true ∧ ∃ r, usersRow1 db = some r

/-- The postcondition established by the admin step: the first users row with
id 1 exists and carries the admin role. -/
def AdminP (db : DB) : Prop :=
  ∃ r, usersRow1 db = some r ∧ aget "role" r = some (.s "admin")

theorem usersRow1_hasTable (db : DB) (r : Row) (h : usersRow1 db = some r) :
    hasTable db "users" = true := by
  simp only [usersRow1] at h
  cases hg : getTable db "users" with
  | none => rw [hg] at h; simp at h
  | some t => simp [hasTable, hg]

theorem PreP_createTable (d : DB) (n : String) (cols pk : List String) (hp : PreP d) :
    PreP (createTable d n cols pk) := by
  obtain ⟨h1, h2, h3, r, hr⟩ := hp
  exact ⟨hasTable_createTable d n cols pk _ h1, hasTable_createTable d n cols pk _ h2,
    hasTable_createTable d n cols pk _ h3, r,
    by rw [usersRow1_createTable d n cols pk h1]; exact hr⟩

theorem PreP_addColumnD_other (d : DB) (n c : String) (v : Val) (hn : n ≠ "users")
    (hp : PreP d) : PreP (addColumnD d n c v) := by
  obtain ⟨h1, h2, h3, r, hr⟩ := hp
  refine ⟨by rw [hasTable_addColumnD]; exact h1, by rw [hasTable_addColumnD]; exact h2,
    by rw [hasTable_addColumnD]; exact h3, r, ?_⟩
  rw [usersRow1_getTable_ne d (addColumnD d n c v) (getTable_addColumnD_ne d n c v "users" hn)]
  exact hr

theorem PreP_addColumnD_users (d : DB) (c : String) (v : Val) (hc : c ≠ "id")
    (hp : PreP d) : PreP (addColumnD d "users" c v) := by
  obtain ⟨h1, h2, h3, r, hr⟩ := hp
  refine ⟨by rw [hasTable_addColumnD]; exact h1, by rw [hasTable_addColumnD]; exact h2,
    by rw [hasTable_addColumnD]; exact h3, r ++ [(c, v)], ?_⟩
  rw [usersRow1_addColumnD_users d c v hc, hr]
  rfl

theorem PreP_dropColumn_other (d : DB) (n c : String) (hn : n ≠ "users") (hp : PreP d) :
    PreP (dropColumn d n c) := by
  obtain ⟨h1, h2, h3, r, hr⟩ := hp
  refine ⟨by rw [hasTable_dropColumn]; exact h1, by rw [hasTable_dropColumn]; exact h2,
    by rw [hasTable_dropColumn]; exact h3, r, ?_⟩
  rw [usersRow1_getTable_ne d (dropColumn d n c) (getTable_dropColumn_ne d n c "users" hn)]
  exact hr

theorem act_createStep_inv {n : String} {cols pk : List String} {d d2 : DB}
    (ha : (createStep n cols pk).act d = some d2) : d2 = createTable d n cols pk := by
  simp only [createStep, Option.some.injEq] at ha
  exact ha.symm

theorem act_addColStep_inv {n c : String} {d d2 : DB}
    (ha : (addColStep n c).act d = some d2) : d2 = addColumnD d n c Val.null := by
  simp only [addColStep] at ha
  by_cases h : hasTable d n = true
  · rw [if_pos h] at ha
    simpa [addColumn] using (Option.some.inj ha).symm
  · rw [if_neg h] at ha
    simp at ha

theorem act_addColDStep_inv {n c : String} {v : Val} {d d2 : DB}
    (ha : (addColDStep n c v).act d = some d2) : d2 = addColumnD d n c v := by
  simp only [addColDStep] at ha
  by_cases h : hasTable d n = true
  · rw [if_pos h] at ha
    exact (Option.some.inj ha).symm
  · rw [if_neg h] at ha
    simp at ha

theorem act_guardedAddColStep_inv {n c : String} {d d2 : DB}
    (ha : (guardedAddColStep n c).act d = some d2) : d2 = addColumnD d n c Val.null := by
  simp only [guardedAddColStep] at ha
  by_cases h : hasTable d n = true
  · rw [if_pos h] at ha
    simpa [addColumn] using (Option.some.inj ha).symm
  · rw [if_neg h] at ha
    simp at ha

theorem total_addColStep (n c : String) (d : DB) (h : hasTable d n = true) :
    ((addColStep n c).act d).isSome := by
  simp [addColStep, h]

theorem total_addColDStep (n c : String) (v : Val) (d : DB) (h : hasTable d n = true) :
    ((addColDStep n c v).act d).isSome := by
  simp [addColDStep, h]

theorem total_guardedAddColStep (n c : String) (d : DB)
    (hc : (guardedAddColStep n c).cond d = true) : ((guardedAddColStep n c).act d).isSome := by
  simp only [guardedAddColStep, Bool.and_eq_true] at hc
  simp [guardedAddColStep, hc.1]

theorem usersRow1_pred (d : DB) (r : Row) (h : usersRow1 d = some r) :
    aget "id" r = some (.i 1) := by
  simp only [usersRow1] at h
  cases hg : getTable d "users" with
  | none => rw [hg] at h; simp at h
  | some t =>
    rw [hg] at h
    have := List.find?_some h
    simpa using this

theorem AdminP_adminAct (d : DB) (hex : ∃ r, usersRow1 d = some r) :
    AdminP (adminAct d) := by
  obtain ⟨r, hr⟩ := hex
  have hid : ∀ r2 : Row, aget "id"
      (if decide (aget "id" r2 = some (Val.i 1)) then setVal r2 "role" (Val.s "admin")
       else r2) = aget "id" r2 := by
    intro r2
    by_cases h : aget "id" r2 = some (Val.i 1)
    · rw [if_pos (by simpa using h)]
      simp only [setVal]
      exact aget_aset_ne "role" "id" _ r2 (by decide)
    · rw [if_neg (by simpa using h)]
  have hmap := usersRow1_updateRows_users d
    (fun r2 => decide (aget "id" r2 = some (Val.i 1)))
    (fun r2 => setVal r2 "role" (Val.s "admin")) hid
  have hpred : decide (aget "id" r = some (Val.i 1)) = true := by
    simpa using usersRow1_pred d r hr
  have hrow : usersRow1 (adminAct d) = some (setVal r "role" (Val.s "admin")) := by
    simp only [adminAct]
    rw [hmap, hr]
    have hcond : aget "id" r = some (Val.i 1) := usersRow1_pred d r hr
    simp [hcond]
  exact ⟨setVal r "role" (Val.s "admin"), hrow, by simp [setVal, aget_aset_self]⟩

theorem AdminP_of_adminCond_false (d : DB) (hc : adminCond d = false)
    (hex : ∃ r, usersRow1 d = some r) : AdminP d := by
  obtain ⟨r, hr⟩ := hex
  simp only [adminCond, hr] at hc
  exact ⟨r, hr, by simpa using hc⟩

theorem AdminP_getTable_eq (d d2 : DB) (h : getTable d2 "users" = getTable d "users")
    (ha : AdminP d) : AdminP d2 := by
  obtain ⟨r, hr, hrole⟩ := ha
  exact ⟨r, by rw [usersRow1_getTable_ne d d2 h]; exact hr, hrole⟩

theorem AdminP_createTable (d : DB) (n : String) (cols pk : List String) (ha : AdminP d) :
    AdminP (createTable d n cols pk) := by
  obtain ⟨r, hr, hrole⟩ := ha
  have hu := usersRow1_hasTable d r hr
  exact ⟨r, by rw [usersRow1_createTable d n cols pk hu]; exact hr, hrole⟩

theorem AdminP_addColumnD_other (d : DB) (n c : String) (v : Val) (hn : n ≠ "users")
    (ha : AdminP d) : AdminP (addColumnD d n c v) :=
  AdminP_getTable_eq d _ (getTable_addColumnD_ne d n c v "users" hn) ha

theorem AdminP_pwAct (d : DB) (ha : AdminP d) : AdminP (pwAct d) := by
  obtain ⟨r, hr, hrole⟩ := ha
  have hid : ∀ r2 : Row, aget "id"
      (if needsHash (aget "password" r2) then
        setVal r2 "password" (Val.s (bcryptHash (pwText (aget "password" r2))))
       else r2) = aget "id" r2 := by
    intro r2
    by_cases h : needsHash (aget "password" r2) = true
    · rw [if_pos h]
      simp only [setVal]
      exact aget_aset_ne "password" "id" _ r2 (by decide)
    · rw [if_neg h]
  have hmap := usersRow1_updateRows_users d
    (fun r2 => needsHash (aget "password" r2))
    (fun r2 => setVal r2 "password" (Val.s (bcryptHash (pwText (aget "password" r2))))) hid
  have hrow : usersRow1 (pwAct d) = some (if needsHash (aget "password" r) then
      setVal r "password" (Val.s (bcryptHash (pwText (aget "password" r)))) else r) := by
    simp only [pwAct]
    rw [hmap, hr]
    rfl
  refine ⟨_, hrow, ?_⟩
  by_cases h : needsHash (aget "password" r) = true
  · rw [if_pos h]
    simp only [setVal]
    rw [aget_aset_ne "password" "role" _ r (by decide)]
    exact hrole
  · rw [if_neg h]
    exact hrole

theorem AdminP_recreatePoLines (d : DB) (ha : AdminP d) :
    AdminP (createTable (dropTable d "erp_purchase_order_lines")
      "erp_purchase_order_lines" erpPurchaseOrderLinesCols ["ORDEN_COMPRA", "ARTICULO"]) := by
  have h1 : getTable (dropTable d "erp_purchase_order_lines") "users" = getTable d "users" :=
    getTable_dropTable_ne d "erp_purchase_order_lines" "users" (by decide)
  exact AdminP_createTable _ _ _ _ (AdminP_getTable_eq d _ h1 ha)

theorem preAdmin_acts_preserve :
    ∀ s ∈ preAdminSteps, ∀ d d2, PreP d → s.act d = some d2 → PreP d2 := by
  intro s hs d d2 hp ha
  simp only [preAdminSteps, List.mem_cons, List.not_mem_nil, or_false] at hs
  rcases hs with rfl|rfl|rfl|rfl|rfl|rfl|rfl|rfl|rfl|rfl|rfl|rfl|rfl|rfl|rfl|rfl|rfl|rfl|rfl|rfl|rfl|rfl|rfl|rfl|rfl|rfl|rfl|rfl|rfl|rfl|rfl
  · rw [act_createStep_inv ha]; exact PreP_createTable _ _ _ _ hp
  · rw [act_guardedAddColStep_inv ha]; exact PreP_addColumnD_other _ _ _ _ (by decide) hp
  · rw [act_guardedAddColStep_inv ha]; exact PreP_addColumnD_other _ _ _ _ (by decide) hp
  · rw [act_guardedAddColStep_inv ha]; exact PreP_addColumnD_other _ _ _ _ (by decide) hp
  · rw [act_guardedAddColStep_inv ha]; exact PreP_addColumnD_other _ _ _ _ (by decide) hp
  · rw [act_createStep_inv ha]; exact PreP_createTable _ _ _ _ hp
  · rw [act_createStep_inv ha]; exact PreP_createTable _ _ _ _ hp
  · rw [act_addColStep_inv ha]; exact PreP_addColumnD_users _ _ _ (by decide) hp
  · rw [act_addColDStep_inv ha]; exact PreP_addColumnD_users _ _ _ (by decide) hp
  · rw [act_addColStep_inv ha]; exact PreP_addColumnD_users _ _ _ (by decide) hp
  · rw [act_addColDStep_inv ha]; exact PreP_addColumnD_other _ _ _ _ (by decide) hp
  · rw [act_addColDStep_inv ha]; exact PreP_addColumnD_other _ _ _ _ (by decide) hp
  · rw [act_addColDStep_inv ha]; exact PreP_addColumnD_other _ _ _ _ (by decide) hp
  · rw [act_addColStep_inv ha]; exact PreP_addColumnD_other _ _ _ _ (by decide) hp
  · rw [show d2 = dropColumn d "company_settings" "importPath" from (Option.some.inj ha).symm]; exact PreP_dropColumn_other _ _ _ (by decide) hp
  · rw [act_addColStep_inv ha]; exact PreP_addColumnD_other _ _ _ _ (by decide) hp
  · rw [act_addColStep_inv ha]; exact PreP_addColumnD_other _ _ _ _ (by decide) hp
  · rw [act_addColStep_inv ha]; exact PreP_addColumnD_other _ _ _ _ (by decide) hp
  · rw [act_addColStep_inv ha]; exact PreP_addColumnD_other _ _ _ _ (by decide) hp
  · rw [act_addColStep_inv ha]; exact PreP_addColumnD_other _ _ _ _ (by decide) hp
  · rw [act_addColStep_inv ha]; exact PreP_addColumnD_other _ _ _ _ (by decide) hp
  · rw [act_addColStep_inv ha]; exact PreP_addColumnD_other _ _ _ _ (by decide) hp
  · rw [act_addColStep_inv ha]; exact PreP_addColumnD_other _ _ _ _ (by decide) hp
  · rw [act_addColStep_inv ha]; exact PreP_addColumnD_other _ _ _ _ (by decide) hp
  · rw [act_addColStep_inv ha]; exact PreP_addColumnD_other _ _ _ _ (by decide) hp
  · rw [act_addColStep_inv ha]; exact PreP_addColumnD_other _ _ _ _ (by decide) hp
  · rw [act_addColDStep_inv ha]; exact PreP_addColumnD_other _ _ _ _ (by decide) hp
  · rw [act_addColStep_inv ha]; exact PreP_addColumnD_other _ _ _ _ (by decide) hp
  · rw [act_addColDStep_inv ha]; exact PreP_addColumnD_other _ _ _ _ (by decide) hp
  · rw [act_addColStep_inv ha]; exact PreP_addColumnD_other _ _ _ _ (by decide) hp
  · rw [act_addColStep_inv ha]; exact PreP_addColumnD_other _ _ _ _ (by decide) hp

theorem preAdmin_acts_total :
    ∀ s ∈ preAdminSteps, ∀ d, PreP d → s.cond d = true → (s.act d).isSome := by
  intro s hs d hp hc
  simp only [preAdminSteps, List.mem_cons, List.not_mem_nil, or_false] at hs
  rcases hs with rfl|rfl|rfl|rfl|rfl|rfl|rfl|rfl|rfl|rfl|rfl|rfl|rfl|rfl|rfl|rfl|rfl|rfl|rfl|rfl|rfl|rfl|rfl|rfl|rfl|rfl|rfl|rfl|rfl|rfl|rfl
  · simp [createStep]
  · exact total_guardedAddColStep _ _ _ hc
  · exact total_guardedAddColStep _ _ _ hc
  · exact total_guardedAddColStep _ _ _ hc
  · exact total_guardedAddColStep _ _ _ hc
  · simp [createStep]
  · simp [createStep]
  · exact total_addColStep _ _ _ hp.1
  · exact total_addColDStep _ _ _ _ hp.1
  · exact total_addColStep _ _ _ hp.1
  · exact total_addColDStep _ _ _ _ hp.2.1
  · exact total_addColDStep _ _ _ _ hp.2.1
  · exact total_addColDStep _ _ _ _ hp.2.1
  · exact total_addColStep _ _ _ hp.2.1
  · simp
  · exact total_addColStep _ _ _ hp.2.1
  · exact total_addColStep _ _ _ hp.2.1
  · exact total_addColStep _ _ _ hp.2.1
  · exact total_addColStep _ _ _ hp.2.1
  · exact total_addColStep _ _ _ hp.2.1
  · exact total_addColStep _ _ _ hp.2.1
  · exact total_addColStep _ _ _ hp.2.1
  · exact total_addColStep _ _ _ hp.2.1
  · exact total_addColStep _ _ _ hp.2.1
  · exact total_addColStep _ _ _ hp.2.1
  · exact total_addColStep _ _ _ hp.2.1
  · exact total_addColDStep _ _ _ _ hp.2.1
  · exact total_addColStep _ _ _ hp.2.1
  · exact total_addColDStep _ _ _ _ hp.2.1
  · exact total_addColStep _ _ _ hp.2.1
  · exact total_addColStep _ _ _ hp.2.2.1

theorem postAdmin_acts_preserve :
    ∀ s ∈ postAdminSteps, ∀ d d2, AdminP d → s.act d = some d2 → AdminP d2 := by
  intro s hs d d2 hp ha
  simp only [postAdminSteps, List.mem_cons, List.not_mem_nil, or_false] at hs
  rcases hs with rfl|rfl|rfl|rfl|rfl|rfl|rfl|rfl|rfl|rfl|rfl|rfl|rfl|rfl|rfl|rfl|rfl|rfl|rfl|rfl|rfl|rfl|rfl|rfl|rfl|rfl|rfl|rfl|rfl|rfl|rfl|rfl|rfl
  · rw [act_guardedAddColStep_inv ha]; exact AdminP_addColumnD_other _ _ _ _ (by decide) hp
  · rw [act_guardedAddColStep_inv ha]; exact AdminP_addColumnD_other _ _ _ _ (by decide) hp
  · rw [act_guardedAddColStep_inv ha]; exact AdminP_addColumnD_other _ _ _ _ (by decide) hp
  · rw [act_guardedAddColStep_inv ha]; exact AdminP_addColumnD_other _ _ _ _ (by decide) hp
  · rw [act_guardedAddColStep_inv ha]; exact AdminP_addColumnD_other _ _ _ _ (by decide) hp
  · rw [act_guardedAddColStep_inv ha]; exact AdminP_addColumnD_other _ _ _ _ (by decide) hp
  · rw [act_guardedAddColStep_inv ha]; exact AdminP_addColumnD_other _ _ _ _ (by decide) hp
  · rw [act_guardedAddColStep_inv ha]; exact AdminP_addColumnD_other _ _ _ _ (by decide) hp
  · rw [show d2 = pwAct d from (Option.some.inj ha).symm]; exact AdminP_pwAct d hp
  · rw [act_guardedAddColStep_inv ha]; exact AdminP_addColumnD_other _ _ _ _ (by decide) hp
  · rw [act_guardedAddColStep_inv ha]; exact AdminP_addColumnD_other _ _ _ _ (by decide) hp
  · rw [act_guardedAddColStep_inv ha]; exact AdminP_addColumnD_other _ _ _ _ (by decide) hp
  · rw [act_guardedAddColStep_inv ha]; exact AdminP_addColumnD_other _ _ _ _ (by decide) hp
  · rw [act_createStep_inv ha]; exact AdminP_createTable _ _ _ _ hp
  · rw [act_createStep_inv ha]; exact AdminP_createTable _ _ _ _ hp
  · rw [act_guardedAddColStep_inv ha]; exact AdminP_addColumnD_other _ _ _ _ (by decide) hp
  · rw [act_guardedAddColStep_inv ha]; exact AdminP_addColumnD_other _ _ _ _ (by decide) hp
  · rw [act_guardedAddColStep_inv ha]; exact AdminP_addColumnD_other _ _ _ _ (by decide) hp
  · rw [act_createStep_inv ha]; exact AdminP_createTable _ _ _ _ hp
  · rw [act_createStep_inv ha]; exact AdminP_createTable _ _ _ _ hp
  · rw [act_guardedAddColStep_inv ha]; exact AdminP_addColumnD_other _ _ _ _ (by decide) hp
  · rw [act_createStep_inv ha]; exact AdminP_createTable _ _ _ _ hp
  · rw [show d2 = createTable (dropTable d "erp_purchase_order_lines") "erp_purchase_order_lines" erpPurchaseOrderLinesCols ["ORDEN_COMPRA", "ARTICULO"] from (Option.some.inj ha).symm]; exact AdminP_recreatePoLines d hp
  · rw [act_createStep_inv ha]; exact AdminP_createTable _ _ _ _ hp
  · rw [act_createStep_inv ha]; exact AdminP_createTable _ _ _ _ hp
  · rw [act_createStep_inv ha]; exact AdminP_createTable _ _ _ _ hp
  · rw [act_createStep_inv ha]; exact AdminP_createTable _ _ _ _ hp
  · rw [act_createStep_inv ha]; exact AdminP_createTable _ _ _ _ hp
  · rw [act_createStep_inv ha]; exact AdminP_createTable _ _ _ _ hp
  · rw [act_createStep_inv ha]; exact AdminP_createTable _ _ _ _ hp
  · rw [act_createStep_inv ha]; exact AdminP_createTable _ _ _ _ hp
  · rw [act_createStep_inv ha]; exact AdminP_createTable _ _ _ _ hp
  · rw [act_createStep_inv ha]; exact AdminP_createTable _ _ _ _ hp
theorem run_adminStep_cons (post : List MigStep) (d : DB)
    (hpost : ∀ s ∈ post, ∀ x x2, AdminP x → s.act x = some x2 → AdminP x2)
    (hex : ∃ r, usersRow1 d = some r) :
    AdminP (runMigSteps (adminStep :: post) d).1 := by
  simp only [runMigSteps, adminStep]
  by_cases hc : adminCond d = true
  · simp only [hc, if_true]
    exact runMigSteps_preserves AdminP post (adminAct d) hpost (AdminP_adminAct d hex)
  · simp only [Bool.not_eq_true] at hc
    simp only [hc, Bool.false_eq_true, if_false]
    exact runMigSteps_preserves AdminP post d hpost (AdminP_of_adminCond_false d hc hex)

/-- C10: whenever the main migrator runs over a database whose users,
company_settings and products tables exist (so no unguarded ALTER throws
before the admin check) and a users row with id 1 exists, the migrated
database has that row's role forced to admin. -/
theorem migrator_forces_admin_role (db : DB)
    (hu : hasTable db "users" = true)
    (hcs : hasTable db "company_settings" = true)
    (hpr : hasTable db "products" = true)
    (hex : ∃ r, usersRow1 db = some r) :
    ∃ r, usersRow1 (checkAndApplyMigrations db).1 = some r ∧
      aget "role" r = some (Val.s "admin") := by
  have hP : PreP db := ⟨hu, hcs, hpr, hex⟩
  have hsplit := runMigSteps_append_total PreP preAdminSteps (adminStep :: postAdminSteps) db
    preAdmin_acts_preserve preAdmin_acts_total hP
  have hgoal : AdminP (runMigSteps mainMigSteps db).1 := by
    simp only [mainMigSteps]
    rw [hsplit.1]
    exact run_adminStep_cons postAdminSteps (runMigSteps preAdminSteps db).1
      postAdmin_acts_preserve hsplit.2.2.2.2
  simpa [checkAndApplyMigrations, hu, AdminP] using hgoal

/-- A small main database whose user 1 is not an admin. -/
def c10WitnessDb : DB :=
  [⟨"users", ["id", "password", "role"], ["id"],
     [[("id", .i 1), ("password", .s "$2a$10$x"), ("role", .s "sales")]]⟩,
   ⟨"company_settings", companySettingsCols, ["id"], []⟩,
   ⟨"products", ["id", "barcode"], ["id"], []⟩]

/-- Witness for C10: on a concrete database with user 1 in role sales, the
migrated role is admin. -/
theorem migrator_forces_admin_role_witness :
    ∃ r, usersRow1 (checkAndApplyMigrations c10WitnessDb).1 = some r ∧
      aget "role" r = some (Val.s "admin") :=
  migrator_forces_admin_role c10WitnessDb (by decide) (by decide) (by decide)
    ⟨[("id", .i 1), ("password", .s "$2a$10$x"), ("role", .s "sales")], by decide⟩

/-- C7 witness: the freshly initialized main database is schema-current, and
the migrator run on it changes nothing and executes zero ALTER/CREATE. -/
theorem migration_convergence_witness :
    mainSchemaCurrent (initializeMainDatabase []) = true ∧
    checkAndApplyMigrations (initializeMainDatabase []) = (initializeMainDatabase [], 0) :=
  ⟨by decide, migration_convergence.1 (initializeMainDatabase []) (by decide)⟩

/-! ## Connection-manager lemmas -/

/-- The content a freshly created module file holds after connectDb finishes:
initializer then best-effort migrator on the empty database. -/
def freshModuleDb (ext : ExtOps) (id : String) : DB :=
  runMigrationsSafe ext id (initializerFor ext id [])

theorem fastPath_none_of_cache_none (w : DbWorld) (f : String) (fr : Bool)
    (h : aget f w.cache = none) : fastPath w f fr = none := by
  simp [fastPath, h]

theorem fastPath_force (w : DbWorld) (f : String) : fastPath w f true = none := by
  simp [fastPath]

theorem evictCached_cache_none (w : DbWorld) (f : String) (h : aget f w.cache = none) :
    evictCached w f = w := by
  simp [evictCached, h]

theorem evictCached_fs (w : DbWorld) (f : String) : (evictCached w f).fs = w.fs := by
  unfold evictCached
  cases aget f w.cache <;> rfl

theorem evictCached_nextId (w : DbWorld) (f : String) :
    (evictCached w f).nextId = w.nextId := by
  unfold evictCached
  cases aget f w.cache <;> rfl

theorem evictCached_nowMillis (w : DbWorld) (f : String) :
    (evictCached w f).nowMillis = w.nowMillis := by
  unfold evictCached
  cases aget f w.cache <;> rfl

theorem dbPath_ne_quarantine (p x : String) : p ≠ p ++ ".corrupt." ++ x := by
  intro h
  have hlen := congrArg String.length h
  rw [String.length_append, String.length_append] at hlen
  have h9 : (".corrupt." : String).length = 9 := rfl
  omega

/-- C3: with no cached handle, opening a corrupt file quarantines it to the
timestamped backup name, creates a fresh file, runs the module initializer
and migrator, caches an open handle and succeeds; any non-corruption open
failure propagates unchanged as an openError. -/
theorem corruption_recovery (ext : ExtOps) (w : DbWorld) (dbFile : String) (m : DbModule)
    (hcache : aget dbFile w.cache = none)
    (hm : DB_MODULES.find? (fun m2 => m2.dbFile = dbFile) = some m) :
    (aget (dbPath dbFile) w.fs = some .corrupt →
      (connectDb ext w dbFile false).1 = .ok w.nextId ∧
      aget w.nextId (connectDb ext w dbFile false).2.handles =
        some ⟨dbFile, true, freshModuleDb ext m.id, true, []⟩ ∧
      aget dbFile (connectDb ext w dbFile false).2.cache = some w.nextId ∧
      aget (dbPath dbFile) (connectDb ext w dbFile false).2.fs =
        some (.dbFile (freshModuleDb ext m.id)) ∧
      aget (dbPath dbFile ++ ".corrupt." ++ toString w.nowMillis)
        (connectDb ext w dbFile false).2.fs = some .corrupt) ∧
    (∀ msg, aget (dbPath dbFile) w.fs = some (.unreadable msg) →
      (connectDb ext w dbFile false).1 = .error (.openError msg)) := by
  constructor
  · intro hfs
    have hcold : connectDb ext w dbFile false = coldConnect ext w dbFile false := by
      simp [connectDb, fastPath_none_of_cache_none w dbFile false hcache]
    rw [hcold]
    simp only [coldConnect, evictCached_cache_none w dbFile hcache, forceDelete,
      Bool.false_and, Bool.false_eq_true, if_false, openFile, hfs, setupModule, hm,
      Bool.not_eq_true, finishConnect]
    refine ⟨trivial, ?_, ?_, ?_, ?_⟩
    · rw [aget_aset_self]
      simp [freshModuleDb]
    · rw [aget_aset_self]
    · rw [aget_aset_self]
      simp [freshModuleDb]
    · rw [aget_aset_ne _ _ _ _ (dbPath_ne_quarantine (dbPath dbFile) (toString w.nowMillis)),
        aget_aset_ne _ _ _ _ (dbPath_ne_quarantine (dbPath dbFile) (toString w.nowMillis)),
        aget_aset_self]
  · intro msg hfs
    have hcold : connectDb ext w dbFile false = coldConnect ext w dbFile false := by
      simp [connectDb, fastPath_none_of_cache_none w dbFile false hcache]
    rw [hcold]
    simp only [coldConnect, evictCached_cache_none w dbFile hcache, forceDelete,
      Bool.false_and, Bool.false_eq_true, if_false, openFile, hfs]

/-- A world holding only a corrupt notifications database file. -/
def c3World : DbWorld :=
  { fs := [("dbs/notifications.db", .corrupt)], cache := [], handles := [],
    nextId := 0, nowMillis := 42 }

/-- Witness for C3: recovering the corrupt notifications file yields a fresh
handle and leaves the quarantine file on disk. -/
theorem corruption_recovery_witness :
    (connectDb defaultExt c3World "notifications.db" false).1 = .ok 0 ∧
    aget (dbPath "notifications.db" ++ ".corrupt." ++ toString c3World.nowMillis)
      (connectDb defaultExt c3World "notifications.db" false).2.fs =
      some FileContent.corrupt := by
  have h := corruption_recovery defaultExt c3World "notifications.db"
    ⟨"notifications-engine", "notifications.db"⟩ (by decide) (by decide)
  have h2 := h.1 (by decide)
  exact ⟨h2.1, h2.2.2.2.2⟩

/-- C9: a forced recreation of an existing module file ignores the prior
content entirely: the returned open handle (and the stored file) hold exactly
the freshly initialized module database, and the new handle is cached.  The
prior content d does not occur in the conclusion. -/
theorem force_recreate_destroys (ext : ExtOps) (w : DbWorld) (dbFile : String)
    (m : DbModule) (d : DB)
    (hm : DB_MODULES.find? (fun m2 => m2.dbFile = dbFile) = some m)
    (hfile : aget (dbPath dbFile) w.fs = some (.dbFile d)) :
    (connectDb ext w dbFile true).1 = .ok w.nextId ∧
    aget w.nextId (connectDb ext w dbFile true).2.handles =
      some ⟨dbFile, true, freshModuleDb ext m.id, true, []⟩ ∧
    aget dbFile (connectDb ext w dbFile true).2.cache = some w.nextId ∧
    aget (dbPath dbFile) (connectDb ext w dbFile true).2.fs =
      some (.dbFile (freshModuleDb ext m.id)) := by
  have hcold : connectDb ext w dbFile true = coldConnect ext w dbFile true := by
    simp [connectDb, fastPath_force]
  rw [hcold]
  have hsome : (aget (dbPath dbFile) w.fs).isSome = true := by
    rw [hfile]; rfl
  simp only [coldConnect, forceDelete, evictCached_fs, Bool.true_and, hsome, if_true,
    openFile, aget_adel_self, setupModule, hm, finishConnect, evictCached_nextId]
  refine ⟨trivial, ?_, ?_, ?_⟩
  · rw [aget_aset_self]
    simp [freshModuleDb]
  · rw [aget_aset_self]
  · rw [aget_aset_self]
    simp [freshModuleDb]

/-- A world with a previously seeded AI database file on disk. -/
def c9World : DbWorld :=
  { fs := [("dbs/ia.db",
      .dbFile [⟨"knowledge_base_paths", ["id", "name", "path"], ["id"],
        [[("id", .i 7), ("name", .s "old"), ("path", .s "smb://x")]]⟩])],
    cache := [], handles := [], nextId := 0, nowMillis := 0 }

/-- Witness for C9: forced recreation of the seeded ia.db file returns a
handle holding exactly the fresh AI schema with no prior row. -/
theorem force_recreate_destroys_witness :
    (connectDb defaultExt c9World "ia.db" true).1 = .ok 0 ∧
    aget 0 (connectDb defaultExt c9World "ia.db" true).2.handles =
      some ⟨"ia.db", true, freshModuleDb defaultExt "ai-engine", true, []⟩ :=
  ⟨(force_recreate_destroys defaultExt c9World "ia.db" ⟨"ai-engine", "ia.db"⟩
      [⟨"knowledge_base_paths", ["id", "name", "path"], ["id"],
        [[("id", .i 7), ("name", .s "old"), ("path", .s "smb://x")]]⟩]
      (by decide) (by decide)).1,
   (force_recreate_destroys defaultExt c9World "ia.db" ⟨"ai-engine", "ia.db"⟩
      [⟨"knowledge_base_paths", ["id", "name", "path"], ["id"],
        [[("id", .i 7), ("name", .s "old"), ("path", .s "smb://x")]]⟩]
      (by decide) (by decide)).2.1⟩

/-- C5: when the module's migrator throws on the existing file content, the
error is swallowed: the call still succeeds, the handle (holding the state
the migration reached before failing) is cached and returned, and no other
module's cache entry is touched. -/
theorem migration_failure_swallowed (ext : ExtOps) (w : DbWorld) (dbFile : String)
    (m : DbModule) (d : DB) (mf : Migrator) (msg : String) (dPart : DB)
    (hcache : aget dbFile w.cache = none)
    (hm : DB_MODULES.find? (fun m2 => m2.dbFile = dbFile) = some m)
    (hfile : aget (dbPath dbFile) w.fs = some (.dbFile d))
    (hmig : migrationFnFor ext m.id = some mf)
    (herr : mf d = .error (msg, dPart)) :
    (connectDb ext w dbFile false).1 = .ok w.nextId ∧
    aget w.nextId (connectDb ext w dbFile false).2.handles =
      some ⟨dbFile, true, dPart, true, []⟩ ∧
    aget dbFile (connectDb ext w dbFile false).2.cache = some w.nextId ∧
    (∀ f2, f2 ≠ dbFile → aget f2 (connectDb ext w dbFile false).2.cache =
      aget f2 w.cache) := by
  have hcold : connectDb ext w dbFile false = coldConnect ext w dbFile false := by
    simp [connectDb, fastPath_none_of_cache_none w dbFile false hcache]
  rw [hcold]
  simp only [coldConnect, evictCached_cache_none w dbFile hcache, forceDelete,
    Bool.false_and, Bool.false_eq_true, if_false, openFile, hfile, setupModule, hm,
    if_true, runMigrationsSafe, hmig, herr, finishConnect]
  refine ⟨trivial, ?_, ?_, ?_⟩
  · rw [aget_aset_self]
  · rw [aget_aset_self]
  · intro f2 hne
    exact aget_aset_ne dbFile f2 w.nextId w.cache (fun hh => hne hh.symm)

/-- A throwing planner migrator: it mutates the handle (creating one table)
and then throws. -/
def throwingPlannerMigrator : Migrator := fun db =>
  .error ("SQLITE_ERROR: no such column", createTable db "partial_table" ["id"] ["id"])

/-- External module operations whose planner migrator always throws. -/
def throwingExt : ExtOps :=
  { defaultExt with migratePlanner := throwingPlannerMigrator }

/-- A world with an existing planner database file. -/
def c5World : DbWorld :=
  { fs := [("dbs/planner.db", .dbFile [⟨"production_orders", ["id"], ["id"], []⟩])],
    cache := [], handles := [], nextId := 3, nowMillis := 0 }

/-- Witness for C5: the throwing planner migration is swallowed and the
handle, holding the partially migrated state, is cached and returned. -/
theorem migration_failure_swallowed_witness :
    (connectDb throwingExt c5World "planner.db" false).1 = .ok 3 ∧
    aget 3 (connectDb throwingExt c5World "planner.db" false).2.handles =
      some ⟨"planner.db", true,
        createTable [⟨"production_orders", ["id"], ["id"], []⟩] "partial_table" ["id"] ["id"],
        true, []⟩ := by
  have h := migration_failure_swallowed throwingExt c5World "planner.db"
    ⟨"production-planner", "planner.db"⟩ [⟨"production_orders", ["id"], ["id"], []⟩]
    throwingExt.migratePlanner "SQLITE_ERROR: no such column"
    (createTable [⟨"production_orders", ["id"], ["id"], []⟩] "partial_table" ["id"] ["id"])
    (by decide) (by decide) (by decide) rfl rfl
  exact ⟨h.1, h.2.1⟩

/-! ## C4 support: cache/handle invariants -/

theorem mem_aset {α β : Type} [DecidableEq α] {p : α × β} {k : α} {v : β}
    {l : List (α × β)} (h : p ∈ aset k v l) : p = (k, v) ∨ p ∈ l := by
  induction l with
  | nil => simpa [aset] using h
  | cons q rest ih =>
    by_cases hq : q.1 = k
    · simp only [aset, hq, if_pos] at h
      rcases List.mem_cons.mp h with h1 | h1
      · exact Or.inl h1
      · exact Or.inr (List.mem_cons_of_mem q h1)
    · simp only [aset, hq, if_neg, not_false_iff] at h
      rcases List.mem_cons.mp h with h1 | h1
      · exact Or.inr (by rw [h1]; exact List.mem_cons_self q rest)
      · rcases ih h1 with h2 | h2
        · exact Or.inl h2
        · exact Or.inr (List.mem_cons_of_mem q h2)

theorem mem_aset_nodup {α β : Type} [DecidableEq α] {p : α × β} {k : α} {v : β}
    {l : List (α × β)} (hnd : (l.map Prod.fst).Nodup) (h : p ∈ aset k v l) :
    p = (k, v) ∨ (p ∈ l ∧ p.1 ≠ k) := by
  induction l with
  | nil => simpa [aset] using h
  | cons q rest ih =>
    have hnd1 : (q.1 :: rest.map Prod.fst).Nodup := by simpa using hnd
    have hnd2 : (rest.map Prod.fst).Nodup := (List.nodup_cons.mp hnd1).2
    have hqmem : q.1 ∉ rest.map Prod.fst := (List.nodup_cons.mp hnd1).1
    by_cases hq : q.1 = k
    · simp only [aset, hq, if_pos] at h
      rcases List.mem_cons.mp h with h1 | h1
      · exact Or.inl h1
      · right
        refine ⟨List.mem_cons_of_mem q h1, ?_⟩
        intro hpk
        exact hqmem (by rw [hq, ← hpk]; exact List.mem_map_of_mem Prod.fst h1)
    · simp only [aset, hq, if_neg, not_false_iff] at h
      rcases List.mem_cons.mp h with h1 | h1
      · right
        refine ⟨by rw [h1]; exact List.mem_cons_self q rest, by rw [h1]; exact hq⟩
      · rcases ih hnd2 h1 with h2 | h2
        · exact Or.inl h2
        · exact Or.inr ⟨List.mem_cons_of_mem q h2.1, h2.2⟩

theorem mem_adel {α β : Type} [DecidableEq α] {p : α × β} {k : α} {l : List (α × β)}
    (h : p ∈ adel k l) : p ∈ l ∧ p.1 ≠ k := by
  induction l with
  | nil => simp [adel] at h
  | cons q rest ih =>
    by_cases hq : q.1 = k
    · simp only [adel, hq, if_pos] at h
      exact ⟨List.mem_cons_of_mem q (ih h).1, (ih h).2⟩
    · simp only [adel, hq, if_neg, not_false_iff] at h
      rcases List.mem_cons.mp h with h1 | h1
      · exact ⟨by rw [h1]; exact List.mem_cons_self q rest, by rw [h1]; exact hq⟩
      · exact ⟨List.mem_cons_of_mem q (ih h1).1, (ih h1).2⟩

theorem adel_sublist {α β : Type} [DecidableEq α] (k : α) (l : List (α × β)) :
    (adel k l).Sublist l := by
  induction l with
  | nil => simp [adel]
  | cons q rest ih =>
    by_cases hq : q.1 = k
    · simp only [adel, hq, if_pos]
      exact ih.cons q
    · simp only [adel, hq, if_neg, not_false_iff]
      exact ih.cons₂ q

theorem aget_mem {α β : Type} [DecidableEq α] {k : α} {v : β} {l : List (α × β)}
    (h : aget k l = some v) : (k, v) ∈ l := by
  induction l with
  | nil => simp [aget] at h
  | cons q rest ih =>
    by_cases hq : q.1 = k
    · simp only [aget, hq, if_pos, Option.some.injEq] at h
      have : (k, v) = q := by rw [← h, ← hq]
      rw [this]
      exact List.mem_cons_self q rest
    · simp only [aget, hq, if_neg, not_false_iff] at h
      exact List.mem_cons_of_mem q (ih h)

theorem keys_aset_nodup {α β : Type} [DecidableEq α] (k : α) (v : β) (l : List (α × β))
    (hnd : (l.map Prod.fst).Nodup) : ((aset k v l).map Prod.fst).Nodup := by
  induction l with
  | nil => simp [aset]
  | cons q rest ih =>
    have hnd1 : (q.1 :: rest.map Prod.fst).Nodup := by simpa using hnd
    have hnd2 : (rest.map Prod.fst).Nodup := (List.nodup_cons.mp hnd1).2
    have hqmem : q.1 ∉ rest.map Prod.fst := (List.nodup_cons.mp hnd1).1
    by_cases hq : q.1 = k
    · simp only [aset, hq, if_pos, List.map_cons]
      rw [← hq]
      exact List.nodup_cons.mpr ⟨hqmem, hnd2⟩
    · simp only [aset, hq, if_neg, not_false_iff, List.map_cons]
      refine List.nodup_cons.mpr ⟨?_, ih hnd2⟩
      intro hmem
      simp only [List.mem_map] at hmem
      obtain ⟨p, hp, hp1⟩ := hmem
      rcases mem_aset hp with h1 | h1
      · rw [h1] at hp1
        exact hq hp1.symm
      · exact hqmem (by rw [← hp1]; exact List.mem_map_of_mem Prod.fst h1)

theorem aget_of_mem_nodup {α β : Type} [DecidableEq α] {k : α} {v : β} {l : List (α × β)}
    (hnd : (l.map Prod.fst).Nodup) (h : (k, v) ∈ l) : aget k l = some v := by
  induction l with
  | nil => simp at h
  | cons q rest ih =>
    have hnd1 : (q.1 :: rest.map Prod.fst).Nodup := by simpa using hnd
    have hnd2 : (rest.map Prod.fst).Nodup := (List.nodup_cons.mp hnd1).2
    have hqmem : q.1 ∉ rest.map Prod.fst := (List.nodup_cons.mp hnd1).1
    rcases List.mem_cons.mp h with h1 | h1
    · rw [← h1]
      simp [aget]
    · have hne : q.1 ≠ k := by
        intro hq
        exact hqmem (by rw [hq]; exact List.mem_map_of_mem Prod.fst h1)
      simp only [aget, hne, if_neg, not_false_iff]
      exact ih hnd2 h1

/-- The connection-manager invariant: handle ids are unique, every open
handle is the cached one for its file, every cache entry points to an
existing handle for that file, and all ids are below the allocator. -/
def WorldInv (w : DbWorld) : Prop :=
  (w.handles.map Prod.fst).Nodup ∧
  (∀ p ∈ w.handles, (p.2).isOpen = true → aget (p.2).file w.cache = some p.1) ∧
  (∀ q ∈ w.cache, ∃ hh, aget q.2 w.handles = some hh ∧ hh.file = q.1) ∧
  (∀ p ∈ w.handles, p.1 < w.nextId)

theorem WorldInv_evictCached (w : DbWorld) (f : String) (hw : WorldInv w) :
    WorldInv (evictCached w f) ∧ aget f (evictCached w f).cache = none := by
  obtain ⟨hnd, hopen, hcache, hlt⟩ := hw
  cases hc : aget f w.cache with
  | none =>
    rw [evictCached_cache_none w f hc]
    exact ⟨⟨hnd, hopen, hcache, hlt⟩, hc⟩
  | some id =>
    cases hg : aget id w.handles with
    | none =>
      have hev : evictCached w f = { w with cache := adel f w.cache } := by
        simp [evictCached, hc, hg]
      rw [hev]
      refine ⟨⟨hnd, ?_, ?_, hlt⟩, aget_adel_self f w.cache⟩
      · intro p hp hpo
        have horig := hopen p hp hpo
        have hnef : p.2.file ≠ f := by
          intro hf
          rw [hf, hc] at horig
          have hid : p.1 = id := (Option.some.inj horig).symm
          have hmem2 : (id, p.2) ∈ w.handles := by rw [← hid]; exact hp
          have := aget_of_mem_nodup hnd hmem2
          rw [hg] at this
          exact Option.noConfusion this
        rw [aget_adel_ne f p.2.file w.cache (fun hh2 => hnef hh2.symm)]
        exact horig
      · intro q hq
        exact hcache q (mem_adel hq).1
    | some hh =>
      by_cases ho : hh.isOpen = true
      · have hev : evictCached w f =
            { w with handles := aset id { hh with isOpen := false } w.handles,
                     cache := adel f w.cache } := by
          simp [evictCached, hc, hg, ho]
        rw [hev]
        refine ⟨⟨keys_aset_nodup id _ w.handles hnd, ?_, ?_, ?_⟩, aget_adel_self f w.cache⟩
        · intro p hp hpo
          rcases mem_aset_nodup hnd hp with h1 | ⟨h1, hne1⟩
          · rw [h1] at hpo
            simp at hpo
          · have horig := hopen p h1 hpo
            have hnef : p.2.file ≠ f := by
              intro hf
              rw [hf, hc] at horig
              exact hne1 (Option.some.inj horig).symm
            rw [aget_adel_ne f p.2.file w.cache (fun hh2 => hnef hh2.symm)]
            exact horig
        · intro q hq
          obtain ⟨hqmem, hqne⟩ := mem_adel hq
          obtain ⟨hh2, hget2, hfile2⟩ := hcache q hqmem
          by_cases hqid : q.2 = id
          · rw [hqid, hg] at hget2
            refine ⟨{ hh with isOpen := false }, ?_, ?_⟩
            · rw [hqid]
              exact aget_aset_self id _ w.handles
            · rw [← (Option.some.inj hget2)] at hfile2
              exact hfile2
          · refine ⟨hh2, ?_, hfile2⟩
            rw [aget_aset_ne id q.2 _ w.handles (fun h2 => hqid h2.symm)]
            exact hget2
        · intro p hp
          rcases mem_aset hp with h1 | h1
          · rw [h1]
            exact hlt (id, hh) (aget_mem hg)
          · exact hlt p h1
      · have hev : evictCached w f = { w with cache := adel f w.cache } := by
          simp [evictCached, hc, hg, ho]
        rw [hev]
        refine ⟨⟨hnd, ?_, ?_, hlt⟩, aget_adel_self f w.cache⟩
        · intro p hp hpo
          have horig := hopen p hp hpo
          have hnef : p.2.file ≠ f := by
            intro hf
            rw [hf, hc] at horig
            have hid : p.1 = id := (Option.some.inj horig).symm
            have hmem2 : (id, p.2) ∈ w.handles := by rw [← hid]; exact hp
            have h3 := aget_of_mem_nodup hnd hmem2
            rw [hg] at h3
            have h4 := Option.some.inj h3
            rw [h4] at ho
            exact ho hpo
          rw [aget_adel_ne f p.2.file w.cache (fun hh2 => hnef hh2.symm)]
          exact horig
        · intro q hq
          exact hcache q (mem_adel hq).1

theorem forceDelete_cache (w : DbWorld) (p : String) (fr : Bool) :
    (forceDelete w p fr).cache = w.cache := by
  unfold forceDelete
  split <;> rfl

theorem forceDelete_handles (w : DbWorld) (p : String) (fr : Bool) :
    (forceDelete w p fr).handles = w.handles := by
  unfold forceDelete
  split <;> rfl

theorem forceDelete_nextId (w : DbWorld) (p : String) (fr : Bool) :
    (forceDelete w p fr).nextId = w.nextId := by
  unfold forceDelete
  split <;> rfl

theorem WorldInv_forceDelete (w : DbWorld) (p : String) (fr : Bool) (hw : WorldInv w) :
    WorldInv (forceDelete w p fr) := by
  obtain ⟨h1, h2, h3, h4⟩ := hw
  refine ⟨?_, ?_, ?_, ?_⟩ <;>
    simp only [forceDelete_cache, forceDelete_handles, forceDelete_nextId] <;>
    first
      | exact h1
      | exact h2
      | exact h3
      | exact h4

theorem evictCached_cache_none_out (w : DbWorld) (f : String) :
    aget f (evictCached w f).cache = none := by
  cases hc : aget f w.cache with
  | none => rw [evictCached_cache_none w f hc]; exact hc
  | some id =>
    unfold evictCached
    rw [hc]
    exact aget_adel_self f w.cache

theorem WorldInv_finishConnect (w : DbWorld) (f p : String)
    (fs2 : List (String × FileContent)) (d2 : DB) (hw : WorldInv w)
    (hc : aget f w.cache = none) : WorldInv (finishConnect w f p fs2 d2).2 := by
  obtain ⟨hnd, hopen, hcache, hlt⟩ := hw
  simp only [finishConnect]
  refine ⟨?_, ?_, ?_, ?_⟩
  · exact keys_aset_nodup _ _ _ hnd
  · intro q hq hqo
    rcases mem_aset_nodup hnd hq with h1 | ⟨h1, hne1⟩
    · rw [h1]
      exact aget_aset_self f w.nextId w.cache
    · have horig := hopen q h1 hqo
      have hnef : q.2.file ≠ f := by
        intro hf
        rw [hf, hc] at horig
        exact Option.noConfusion horig
      rw [aget_aset_ne f q.2.file w.nextId w.cache (fun h2 => hnef h2.symm)]
      exact horig
  · intro q hq
    rcases mem_aset hq with h1 | h1
    · refine ⟨⟨f, true, d2, true, []⟩, ?_, ?_⟩
      · rw [h1]
        exact aget_aset_self w.nextId _ w.handles
      · rw [h1]
    · obtain ⟨hh2, hget2, hfile2⟩ := hcache q h1
      have hne : w.nextId ≠ q.2 := by
        intro h2
        have hmem2 := aget_mem hget2
        have := hlt (q.2, hh2) hmem2
        omega
      refine ⟨hh2, ?_, hfile2⟩
      rw [aget_aset_ne w.nextId q.2 _ w.handles hne]
      exact hget2
  · intro q hq
    rcases mem_aset hq with h1 | h1
    · rw [h1]
      show w.nextId < w.nextId + 1
      omega
    · have := hlt q h1
      show q.1 < w.nextId + 1
      omega

theorem WorldInv_connectDb (ext : ExtOps) (w : DbWorld) (f : String) (fr : Bool)
    (hw : WorldInv w) : WorldInv (connectDb ext w f fr).2 := by
  unfold connectDb
  cases hfp : fastPath w f fr with
  | some id => exact hw
  | none =>
    show WorldInv (coldConnect ext w f fr).2
    have hev := WorldInv_evictCached w f hw
    have hw2 := WorldInv_forceDelete (evictCached w f) (dbPath f) fr hev.1
    have hc2 : aget f (forceDelete (evictCached w f) (dbPath f) fr).cache = none := by
      rw [forceDelete_cache]
      exact evictCached_cache_none_out w f
    unfold coldConnect
    cases hof : openFile (forceDelete (evictCached w f) (dbPath f) fr) (dbPath f) with
    | error msg =>
      simp only [hof]
      exact hw2
    | ok trip =>
      obtain ⟨d0, dbE, fs2⟩ := trip
      simp only [hof]
      exact WorldInv_finishConnect _ f (dbPath f) fs2 _ hw2 hc2

theorem forceDelete_false (w : DbWorld) (p : String) : forceDelete w p false = w := by
  simp [forceDelete]

theorem openFile_error_unreadable (w : DbWorld) (p msg : String)
    (h : openFile w p = .error msg) : aget p w.fs = some (.unreadable msg) := by
  unfold openFile at h
  cases hfs : aget p w.fs with
  | none => rw [hfs] at h; exact Except.noConfusion h
  | some fc =>
    cases fc with
    | dbFile d => rw [hfs] at h; exact Except.noConfusion h
    | corrupt => rw [hfs] at h; exact Except.noConfusion h
    | unreadable m =>
      rw [hfs] at h
      have : m = msg := by injection h
      rw [this]

theorem connectDb_ok_post (ext : ExtOps) (w : DbWorld) (f : String) (fr : Bool) (id : Nat)
    (w2 : DbWorld) (h : connectDb ext w f fr = (.ok id, w2)) :
    aget f w2.cache = some id ∧ ∃ hh, aget id w2.handles = some hh ∧ hh.isOpen = true := by
  unfold connectDb at h
  cases hfp : fastPath w f fr with
  | some id2 =>
    rw [hfp] at h
    have h1 : (Except.ok id2 : Except DbErr Nat) = .ok id := congrArg Prod.fst h
    have h2 : w = w2 := congrArg Prod.snd h
    have hid : id2 = id := by injection h1
    subst hid
    subst h2
    unfold fastPath at hfp
    cases fr with
    | true => simp at hfp
    | false =>
      simp only [Bool.false_eq_true, if_false] at hfp
      cases hc : aget f w.cache with
      | none => rw [hc] at hfp; exact Option.noConfusion hfp
      | some cid =>
        simp only [hc] at hfp
        cases hg : aget cid w.handles with
        | none => simp [hg] at hfp
        | some hh =>
          simp only [hg] at hfp
          by_cases ho : hh.isOpen = true
          · rw [if_pos ho] at hfp
            have hcid : cid = id2 := by injection hfp
            rw [hcid] at hg
            exact ⟨by rw [hcid], hh, hg, ho⟩
          · rw [if_neg ho] at hfp
            exact Option.noConfusion hfp
  | none =>
    rw [hfp] at h
    unfold coldConnect at h
    cases hof : openFile (forceDelete (evictCached w f) (dbPath f) fr) (dbPath f) with
    | error msg =>
      simp only [hof] at h
      have h1 := congrArg Prod.fst h
      simp at h1
    | ok trip =>
      obtain ⟨d0, dbE, fs2⟩ := trip
      simp only [hof] at h
      unfold finishConnect at h
      have h1 := congrArg Prod.fst h
      have h2 := congrArg Prod.snd h
      simp only at h1 h2
      have hid : (forceDelete (evictCached w f) (dbPath f) fr).nextId = id := by
        injection h1
      rw [← h2, ← hid]
      exact ⟨aget_aset_self f _ _, ⟨f, true, _, true, []⟩, aget_aset_self _ _ _, rfl⟩

theorem connectDb_second_call (ext : ExtOps) (w : DbWorld) (f : String) (id : Nat)
    (w2 : DbWorld) (h : connectDb ext w f false = (.ok id, w2)) :
    connectDb ext w2 f false = (.ok id, w2) := by
  obtain ⟨hc, hh, hg, ho⟩ := connectDb_ok_post ext w f false id w2 h
  have hfp : fastPath w2 f false = some id := by
    unfold fastPath
    simp [hc, hg, ho]
  unfold connectDb
  rw [hfp]

theorem connectDb_evicts_closed (ext : ExtOps) (w : DbWorld) (f : String) (id : Nat)
    (hh : HandleState) (hc : aget f w.cache = some id) (hg : aget id w.handles = some hh)
    (ho : hh.isOpen = false)
    (hreadable : ∀ msg, aget (dbPath f) w.fs ≠ some (.unreadable msg))
    (hw : WorldInv w) :
    (connectDb ext w f false).1 = .ok w.nextId ∧
    aget f (connectDb ext w f false).2.cache = some w.nextId ∧
    (∃ hh2, aget w.nextId (connectDb ext w f false).2.handles = some hh2 ∧
      hh2.isOpen = true ∧ hh2.file = f) ∧
    id ≠ w.nextId := by
  have hne : id ≠ w.nextId := by
    intro heq
    have := hw.2.2.2 (id, hh) (aget_mem hg)
    omega
  have hfp : fastPath w f false = none := by
    unfold fastPath
    simp [hc, hg, ho]
  have hcold : connectDb ext w f false = coldConnect ext w f false := by
    unfold connectDb
    rw [hfp]
  rw [hcold]
  simp only [coldConnect, forceDelete_false]
  cases hof : openFile (evictCached w f) (dbPath f) with
  | error msg =>
    exfalso
    have := openFile_error_unreadable (evictCached w f) (dbPath f) msg hof
    rw [evictCached_fs] at this
    exact hreadable msg this
  | ok trip =>
    obtain ⟨d0, dbE, fs2⟩ := trip
    simp only [hof, finishConnect, evictCached_nextId]
    refine ⟨trivial, ?_, ?_, hne⟩
    · rw [aget_aset_self]
    · refine ⟨⟨f, true, setupModule ext f dbE d0, true, []⟩, ?_, rfl, rfl⟩
      rw [aget_aset_self]

/-- C4: (i) a second acquire for the same file right after a successful one
is a pure cache hit: it returns the identical handle id and leaves the world
untouched; (ii) connectDb preserves the connection-manager invariant;
(iii) under the invariant at most one open handle per file name exists;
(iv) a cached-but-closed handle is evicted and a fresh open handle is
returned transparently, under a distinct id. -/
theorem cache_singularity :
    (∀ (ext : ExtOps) (w : DbWorld) (f : String) (id : Nat) (w2 : DbWorld),
      connectDb ext w f false = (.ok id, w2) →
      connectDb ext w2 f false = (.ok id, w2)) ∧
    (∀ (ext : ExtOps) (w : DbWorld) (f : String) (fr : Bool),
      WorldInv w → WorldInv (connectDb ext w f fr).2) ∧
    (∀ w : DbWorld, WorldInv w → ∀ p ∈ w.handles, ∀ q ∈ w.handles,
      p.2.isOpen = true → q.2.isOpen = true → p.2.file = q.2.file → p.1 = q.1) ∧
    (∀ (ext : ExtOps) (w : DbWorld) (f : String) (id : Nat) (hh : HandleState),
      aget f w.cache = some id → aget id w.handles = some hh → hh.isOpen = false →
      (∀ msg, aget (dbPath f) w.fs ≠ some (.unreadable msg)) → WorldInv w →
      (connectDb ext w f false).1 = .ok w.nextId ∧
      aget f (connectDb ext w f false).2.cache = some w.nextId ∧
      (∃ hh2, aget w.nextId (connectDb ext w f false).2.handles = some hh2 ∧
        hh2.isOpen = true ∧ hh2.file = f) ∧
      id ≠ w.nextId) := by
  refine ⟨connectDb_second_call, fun ext w f fr hw => WorldInv_connectDb ext w f fr hw,
    ?_, connectDb_evicts_closed⟩
  intro w hw p hp q hq hpo hqo hfile
  have h1 := hw.2.1 p hp hpo
  have h2 := hw.2.1 q hq hqo
  rw [hfile] at h1
  rw [h1] at h2
  exact Option.some.inj h2

/-- A world with a closed cached handle for the AI database file. -/
def c4World : DbWorld :=
  { fs := [("dbs/ia.db", .dbFile [])],
    cache := [("ia.db", 0)],
    handles := [(0, ⟨"ia.db", false, [], false, []⟩)],
    nextId := 1, nowMillis := 0 }

theorem c4World_inv : WorldInv c4World := by
  refine ⟨by decide, ?_, ?_, ?_⟩
  · intro p hp hpo
    simp only [c4World, List.mem_singleton] at hp
    rw [hp] at hpo
    simp at hpo
  · intro q hq
    simp only [c4World, List.mem_singleton] at hq
    exact ⟨⟨"ia.db", false, [], false, []⟩, by rw [hq]; rfl, by rw [hq]⟩
  · intro p hp
    simp only [c4World, List.mem_singleton] at hp
    rw [hp]
    show 0 < 1
    omega

/-- Witness for C4: from the closed-handle world, acquire evicts and reopens
under a fresh id; the call after that is a pure cache hit returning the same
handle id and world; and the invariant holds throughout. -/
theorem cache_singularity_witness :
    ((connectDb defaultExt c4World "ia.db" false).1 = .ok 1 ∧ (0 : Nat) ≠ 1) ∧
    connectDb defaultExt (connectDb defaultExt c4World "ia.db" false).2 "ia.db" false =
      (.ok 1, (connectDb defaultExt c4World "ia.db" false).2) ∧
    WorldInv (connectDb defaultExt c4World "ia.db" false).2 := by
  have hreadable : ∀ msg, aget (dbPath "ia.db") c4World.fs ≠
      some (FileContent.unreadable msg) := by
    intro msg hmsg
    have : aget (dbPath "ia.db") c4World.fs = some (FileContent.dbFile []) := rfl
    rw [this] at hmsg
    simp at hmsg
  have hd := cache_singularity.2.2.2 defaultExt c4World "ia.db" 0
    ⟨"ia.db", false, [], false, []⟩ rfl rfl rfl hreadable c4World_inv
  have h1 : connectDb defaultExt c4World "ia.db" false =
      (.ok 1, (connectDb defaultExt c4World "ia.db" false).2) := by
    have hfst : (connectDb defaultExt c4World "ia.db" false).1 = .ok 1 := hd.1
    calc connectDb defaultExt c4World "ia.db" false
        = ((connectDb defaultExt c4World "ia.db" false).1,
           (connectDb defaultExt c4World "ia.db" false).2) := rfl
      _ = (.ok 1, (connectDb defaultExt c4World "ia.db" false).2) := by rw [hfst]
  refine ⟨⟨hd.1, hd.2.2.2⟩, ?_, ?_⟩
  · exact cache_singularity.1 defaultExt c4World "ia.db" 1
      (connectDb defaultExt c4World "ia.db" false).2 h1
  · exact cache_singularity.2.1 defaultExt c4World "ia.db" false c4World_inv

/-! ## C1/C2 support: federation attach/detach analysis -/

/-- The auxiliary schemas currently attached to the cached main handle. -/
def mainAttached (w : DbWorld) : List (String × String) :=
  match aget DB_FILE w.cache with
  | some id =>
    match aget id w.handles with
    | some h => h.attached
    | none => []
  | none => []

/-- Whether a stored file can be attached (not an unreadable file). -/
def fileAttachable : Option FileContent → Bool
  | some (.unreadable _) => false
  | _ => true

theorem fileAttachable_ne_unreadable (o : Option FileContent)
    (h : fileAttachable o = true) (msg : String) : o ≠ some (.unreadable msg) := by
  intro he
  rw [he] at h
  simp [fileAttachable] at h

theorem attachAux_error (w : DbWorld) (hid : Nat) (a p : String) (e : DbErr)
    (h : attachAux w hid a p = .error e) : e = .attachError a := by
  unfold attachAux at h
  cases hg : aget hid w.handles with
  | none =>
    simp only [hg] at h
    injection h with h2
    exact h2.symm
  | some hh =>
    simp only [hg] at h
    by_cases hany : hh.attached.any (fun ap => ap.1 = a) = true
    · rw [if_pos hany] at h
      injection h with h2
      exact h2.symm
    · rw [if_neg hany] at h
      cases hfs : aget p w.fs with
      | none => simp only [hfs] at h; exact Except.noConfusion h
      | some fc =>
        cases fc with
        | dbFile d => simp only [hfs] at h; exact Except.noConfusion h
        | corrupt => simp only [hfs] at h; exact Except.noConfusion h
        | unreadable m =>
          simp only [hfs] at h
          injection h with h2
          exact h2.symm

theorem attachAux_succeeds (w : DbWorld) (hid : Nat) (a p : String) (hh : HandleState)
    (hg : aget hid w.handles = some hh)
    (hnot : hh.attached.any (fun ap => ap.1 = a) = false)
    (hreadable : fileAttachable (aget p w.fs) = true) :
    attachAux w hid a p =
      .ok { w with handles := aset hid { hh with attached := hh.attached ++ [(a, p)] } w.handles } := by
  unfold attachAux
  simp only [hg]
  rw [if_neg (by rw [hnot]; exact Bool.false_ne_true)]
  cases hfs : aget p w.fs with
  | none => simp only [hfs]
  | some fc =>
    cases fc with
    | dbFile d => simp only [hfs]
    | corrupt => simp only [hfs]
    | unreadable m =>
      rw [hfs] at hreadable
      simp [fileAttachable] at hreadable

theorem attachLoop_error_classified :
    ∀ (mods : List DbModule) (w : DbWorld) (hid : Nat) (e : DbErr) (w2 : DbWorld),
      attachLoop w hid mods = (some e, w2) → ∃ a, e = .attachError a := by
  intro mods
  induction mods with
  | nil => intro w hid e w2 h; simp [attachLoop] at h
  | cons m rest ih =>
    intro w hid e w2 h
    unfold attachLoop at h
    by_cases hex : (aget (dbPath m.dbFile) w.fs).isSome = true
    · rw [if_pos hex] at h
      cases ha : attachAux w hid (aliasOf m.id) (dbPath m.dbFile) with
      | error e2 =>
        rw [ha] at h
        have he : e2 = e := by
          have := congrArg Prod.fst h
          simpa using this
        exact ⟨aliasOf m.id, by
          rw [← he]
          exact attachAux_error w hid (aliasOf m.id) (dbPath m.dbFile) e2 ha⟩
      | ok w3 =>
        rw [ha] at h
        exact ih w3 hid e w2 h
    · rw [if_neg hex] at h
      exact ih w hid e w2 h

theorem attachLoop_clean :
    ∀ (mods : List DbModule) (w : DbWorld) (hid : Nat) (hh : HandleState),
      aget hid w.handles = some hh →
      (∀ ap ∈ hh.attached, ap.1 ∉ mods.map (fun m => aliasOf m.id)) →
      ((mods.map (fun m => aliasOf m.id)).Nodup) →
      (∀ m ∈ mods, fileAttachable (aget (dbPath m.dbFile) w.fs) = true) →
      (attachLoop w hid mods).1 = none ∧
      ∃ h2, aget hid (attachLoop w hid mods).2.handles = some h2 ∧
        (∀ ap ∈ h2.attached, ap ∈ hh.attached ∨
          ap.1 ∈ mods.map (fun m => aliasOf m.id)) ∧
        (attachLoop w hid mods).2.cache = w.cache ∧
        (attachLoop w hid mods).2.fs = w.fs := by
  intro mods
  induction mods with
  | nil =>
    intro w hid hh hg hdisj hnd hread
    exact ⟨rfl, hh, hg, fun ap hap => Or.inl hap, rfl, rfl⟩
  | cons m rest ih =>
    intro w hid hh hg hdisj hnd hread
    have hnd' : aliasOf m.id ∉ rest.map (fun m2 => aliasOf m2.id) ∧
        (rest.map (fun m2 => aliasOf m2.id)).Nodup := by
      rw [List.map_cons] at hnd
      exact List.nodup_cons.mp hnd
    unfold attachLoop
    by_cases hex : (aget (dbPath m.dbFile) w.fs).isSome = true
    · rw [if_pos hex]
      have hnot : hh.attached.any (fun ap => ap.1 = aliasOf m.id) = false := by
        rw [List.any_eq_false]
        intro ap hap
        have := hdisj ap hap
        rw [List.map_cons] at this
        simp only [List.mem_cons, not_or] at this
        simpa using this.1
      have hread0 : fileAttachable (aget (dbPath m.dbFile) w.fs) = true :=
        hread m (List.mem_cons_self m rest)
      rw [attachAux_succeeds w hid (aliasOf m.id) (dbPath m.dbFile) hh hg hnot hread0]
      have hg2 : aget hid (aset hid
          { hh with attached := hh.attached ++ [(aliasOf m.id, dbPath m.dbFile)] }
          w.handles) = some { hh with attached :=
          hh.attached ++ [(aliasOf m.id, dbPath m.dbFile)] } :=
        aget_aset_self hid _ w.handles
      have hdisj2 : ∀ ap ∈ hh.attached ++ [(aliasOf m.id, dbPath m.dbFile)],
          ap.1 ∉ rest.map (fun m2 => aliasOf m2.id) := by
        intro ap hap
        rcases List.mem_append.mp hap with h1 | h1
        · have := hdisj ap h1
          rw [List.map_cons] at this
          simp only [List.mem_cons, not_or] at this
          exact this.2
        · simp only [List.mem_singleton] at h1
          rw [h1]
          exact hnd'.1
      have hread2 : ∀ m2 ∈ rest, fileAttachable (aget (dbPath m2.dbFile)
          { w with handles := aset hid { hh with attached :=
            hh.attached ++ [(aliasOf m.id, dbPath m.dbFile)] } w.handles }.fs) = true := by
        intro m2 hm2
        exact hread m2 (List.mem_cons_of_mem m hm2)
      obtain ⟨hres1, h3, hres2, hres3, hres4, hres5⟩ :=
        ih _ hid _ hg2 hdisj2 hnd'.2 hread2
      refine ⟨hres1, h3, hres2, ?_, hres4, hres5⟩
      intro ap hap
      rcases hres3 ap hap with h4 | h4
      · rcases List.mem_append.mp h4 with h5 | h5
        · exact Or.inl h5
        · simp only [List.mem_singleton] at h5
          right
          rw [h5]
          simp
      · right
        rw [List.map_cons]
        exact List.mem_cons_of_mem _ h4
    · rw [if_neg hex]
      have hdisj2 : ∀ ap ∈ hh.attached, ap.1 ∉ rest.map (fun m2 => aliasOf m2.id) := by
        intro ap hap
        have := hdisj ap hap
        rw [List.map_cons] at this
        simp only [List.mem_cons, not_or] at this
        exact this.2
      have hread2 : ∀ m2 ∈ rest, fileAttachable (aget (dbPath m2.dbFile) w.fs) = true :=
        fun m2 hm2 => hread m2 (List.mem_cons_of_mem m hm2)
      obtain ⟨hres1, h3, hres2, hres3, hres4, hres5⟩ := ih w hid hh hg hdisj2 hnd'.2 hread2
      refine ⟨hres1, h3, hres2, ?_, hres4, hres5⟩
      intro ap hap
      rcases hres3 ap hap with h4 | h4
      · exact Or.inl h4
      · right
        rw [List.map_cons]
        exact List.mem_cons_of_mem _ h4

theorem connectDb_error_cache (ext : ExtOps) (w : DbWorld) (f : String) (fr : Bool)
    (e : DbErr) (w2 : DbWorld) (h : connectDb ext w f fr = (.error e, w2)) :
    aget f w2.cache = none := by
  unfold connectDb at h
  cases hfp : fastPath w f fr with
  | some id =>
    rw [hfp] at h
    exact absurd (congrArg Prod.fst h) (by simp)
  | none =>
    rw [hfp] at h
    unfold coldConnect at h
    cases ho : openFile (forceDelete (evictCached w f) (dbPath f) fr) (dbPath f) with
    | error msg =>
      simp only [ho] at h
      have hw2 : forceDelete (evictCached w f) (dbPath f) fr = w2 := congrArg Prod.snd h
      rw [← hw2, forceDelete_cache]
      exact evictCached_cache_none_out w f
    | ok trip =>
      obtain ⟨d0, dbExists, fs2⟩ := trip
      simp only [ho] at h
      have := congrArg Prod.fst h
      simp [finishConnect] at this


theorem connectDb_clean_ok (ext : ExtOps) (w : DbWorld) (f : String) (id : Nat)
    (w2 : DbWorld) (h : connectDb ext w f false = (.ok id, w2))
    (hnc : aget (dbPath f) w.fs ≠ some .corrupt)
    (hclean : ∀ cid hh, aget f w.cache = some cid →
      aget cid w.handles = some hh → hh.attached = []) :
    aget f w2.cache = some id ∧
    (∃ hh, aget id w2.handles = some hh ∧ hh.attached = []) ∧
    (∀ q, q ≠ dbPath f → aget q w2.fs = aget q w.fs) := by
  unfold connectDb at h
  cases hfp : fastPath w f false with
  | some id2 =>
    rw [hfp] at h
    have h1 : (Except.ok id2 : Except DbErr Nat) = .ok id := congrArg Prod.fst h
    have hw : w = w2 := congrArg Prod.snd h
    have hid : id2 = id := by injection h1
    subst hid
    subst hw
    unfold fastPath at hfp
    simp only [Bool.false_eq_true, if_false] at hfp
    cases hc : aget f w.cache with
    | none => rw [hc] at hfp; exact Option.noConfusion hfp
    | some cid =>
      simp only [hc] at hfp
      cases hg : aget cid w.handles with
      | none => simp [hg] at hfp
      | some hh =>
        simp only [hg] at hfp
        by_cases hopen : hh.isOpen = true
        · rw [if_pos hopen] at hfp
          have hcid : cid = id2 := by injection hfp
          subst hcid
          exact ⟨rfl, ⟨hh, hg, hclean cid hh hc hg⟩, fun q _ => rfl⟩
        · rw [if_neg hopen] at hfp
          exact Option.noConfusion hfp
  | none =>
    rw [hfp] at h
    simp only [coldConnect, forceDelete_false] at h
    have hfs1 : (evictCached w f).fs = w.fs := evictCached_fs w f
    cases ho : openFile (evictCached w f) (dbPath f) with
    | error msg =>
      simp only [ho] at h
      exact absurd (congrArg Prod.fst h) (by simp)
    | ok trip =>
      obtain ⟨d0, dbExists, fs2⟩ := trip
      simp only [ho] at h
      have hfs2 : ∀ q, q ≠ dbPath f → aget q fs2 = aget q w.fs := by
        unfold openFile at ho
        rw [hfs1] at ho
        cases hfsc : aget (dbPath f) w.fs with
        | none =>
          rw [hfsc] at ho
          injection ho with ho2
          have h3 : aset (dbPath f) (.dbFile []) w.fs = fs2 :=
            congrArg (fun t => t.2.2) ho2
          intro q hq
          rw [← h3]
          exact aget_aset_ne (dbPath f) q (.dbFile []) w.fs (fun he => hq he.symm)
        | some fc =>
          cases fc with
          | dbFile d =>
            rw [hfsc] at ho
            injection ho with ho2
            have h3 : w.fs = fs2 := congrArg (fun t => t.2.2) ho2
            intro q hq
            rw [← h3]
          | corrupt => exact absurd hfsc hnc
          | unreadable msg =>
            rw [hfsc] at ho
            exact Except.noConfusion ho
      unfold finishConnect at h
      have h1 := congrArg Prod.fst h
      have h2 := congrArg Prod.snd h
      simp only at h1 h2
      have hid : (evictCached w f).nextId = id := by injection h1
      refine ⟨?_, ⟨{ file := f, isOpen := true, db := setupModule ext f dbExists d0, walMode := true, attached := [] }, ?_, rfl⟩, ?_⟩
      · rw [← h2, ← hid]
        exact aget_aset_self f _ _
      · rw [← h2, ← hid]
        exact aget_aset_self _ _ _
      · intro q hq
        rw [← h2]
        show aget q (aset (dbPath f) _ fs2) = _
        rw [aget_aset_ne _ _ _ _ (fun he => hq he.symm)]
        exact hfs2 q hq

theorem detachAux_post (w : DbWorld) (hid : Nat) (a : String) (h : HandleState)
    (hg : aget hid w.handles = some h) :
    ∃ h2, aget hid (detachAux w hid a).handles = some h2 ∧
      h2.attached = h.attached.filter (fun ap => ap.1 ≠ a) ∧
      (detachAux w hid a).cache = w.cache := by
  unfold detachAux
  simp only [hg]
  by_cases hany : h.attached.any (fun ap => ap.1 = a) = true
  · rw [if_pos hany]
    exact ⟨_, aget_aset_self hid _ w.handles, rfl, rfl⟩
  · rw [if_neg hany]
    refine ⟨h, hg, ?_, rfl⟩
    rw [Bool.not_eq_true, List.any_eq_false] at hany
    rw [List.filter_eq_self.mpr]
    intro ap hap
    have := hany ap hap
    simpa using this

theorem detachAll_post :
    ∀ (mods : List DbModule) (w : DbWorld) (hid : Nat) (h : HandleState),
      aget hid w.handles = some h →
      ∃ h2, aget hid (detachAll w hid mods).handles = some h2 ∧
        (∀ ap ∈ h2.attached, ap ∈ h.attached ∧
          ap.1 ∉ mods.map (fun m => aliasOf m.id)) ∧
        (detachAll w hid mods).cache = w.cache := by
  intro mods
  induction mods with
  | nil =>
    intro w hid h hg
    exact ⟨h, hg, fun ap hap => ⟨hap, by simp⟩, rfl⟩
  | cons m rest ih =>
    intro w hid h hg
    obtain ⟨hmid, hgm, hattm, hcm⟩ := detachAux_post w hid (aliasOf m.id) h hg
    obtain ⟨h2, hg2, hmem2, hc2⟩ := ih (detachAux w hid (aliasOf m.id)) hid hmid hgm
    refine ⟨h2, hg2, ?_, hc2.trans hcm⟩
    intro ap hap
    obtain ⟨hm1, hm2⟩ := hmem2 ap hap
    rw [hattm] at hm1
    have hm3 := List.mem_filter.mp hm1
    refine ⟨hm3.1, ?_⟩
    rw [List.map_cons]
    simp only [List.mem_cons, not_or]
    refine ⟨?_, hm2⟩
    have := hm3.2
    simpa using this

theorem detach_leaves_clean (w : DbWorld) (hid : Nat) (mods : List DbModule)
    (h : HandleState) (hg : aget hid w.handles = some h)
    (hcw : aget DB_FILE w.cache = some hid)
    (hmem : ∀ ap ∈ h.attached, ap.1 ∈ mods.map (fun m => aliasOf m.id)) :
    mainAttached (detachAll w hid mods) = [] := by
  obtain ⟨h3, hg3, hmem3, hc3⟩ := detachAll_post mods w hid h hg
  unfold mainAttached
  have hcfin : aget DB_FILE (detachAll w hid mods).cache = some hid := by
    rw [hc3]; exact hcw
  simp only [hcfin, hg3]
  apply List.eq_nil_iff_forall_not_mem.mpr
  intro ap hap
  obtain ⟨hin, hnotin⟩ := hmem3 ap hap
  exact hnotin (hmem ap hin)

/-- C1 (amended): the original claim that no auxiliary schema ever remains
attached after queryLocalDb is false, because the ATTACH loop runs before the
try/finally and a failing ATTACH returns with the earlier attachments still in
place.  The cleanup guarantee does hold whenever the cached main handle starts
with no attachments, the main database file is not corrupt, and every module
database file on disk is attachable: then every auxiliary schema attached
during the call is detached again before the call returns, on the success path
and on the statement-failure path alike. -/
theorem federation_cleanup (ext : ExtOps) (w : DbWorld) (stmt : SqlStmt)
    (h1 : mainAttached w = [])
    (h2 : aget (dbPath DB_FILE) w.fs ≠ some .corrupt)
    (h3 : ∀ m ∈ DB_MODULES, m.id ≠ "clic-tools-main" →
      fileAttachable (aget (dbPath m.dbFile) w.fs) = true) :
    mainAttached (queryLocalDb ext w stmt).2 = [] := by
  have hclean : ∀ cid hh, aget DB_FILE w.cache = some cid →
      aget cid w.handles = some hh → hh.attached = [] := by
    intro cid hh hc hg
    unfold mainAttached at h1
    simp only [hc, hg] at h1
    exact h1
  unfold queryLocalDb
  cases hcd : connectDb ext w DB_FILE false with
  | mk r w1 =>
    cases r with
    | error e =>
      dsimp only
      have hcc : aget DB_FILE w1.cache = none :=
        connectDb_error_cache ext w DB_FILE false e w1 hcd
      unfold mainAttached
      rw [hcc]
    | ok hid =>
      dsimp only
      obtain ⟨hcch, ⟨hh, hg, hatt0⟩, hfspres⟩ :=
        connectDb_clean_ok ext w DB_FILE hid w1 hcd h2 hclean
      have hdisj : ∀ ap ∈ hh.attached,
          ap.1 ∉ (DB_MODULES.filter (fun m => m.id ≠ "clic-tools-main")).map
            (fun m => aliasOf m.id) :=
        fun ap hap => absurd (hatt0 ▸ hap) (List.not_mem_nil ap)
      have hnd : (((DB_MODULES.filter (fun m => m.id ≠ "clic-tools-main")).map
          (fun m => aliasOf m.id))).Nodup := by decide
      have hattach : ∀ m ∈ DB_MODULES.filter (fun m => m.id ≠ "clic-tools-main"),
          fileAttachable (aget (dbPath m.dbFile) w1.fs) = true := by
        intro m hm
        obtain ⟨hmem0, hne0⟩ := List.mem_filter.mp hm
        have hne2 : m.id ≠ "clic-tools-main" := by simpa using hne0
        have hall : ∀ m2 ∈ DB_MODULES, m2.id ≠ "clic-tools-main" →
            dbPath m2.dbFile ≠ dbPath DB_FILE := by decide
        rw [hfspres _ (hall m hmem0 hne2)]
        exact h3 m hmem0 hne2
      obtain ⟨hres1, h2a, hgl, hmemL, hcch2, hfs2⟩ :=
        attachLoop_clean (DB_MODULES.filter (fun m => m.id ≠ "clic-tools-main"))
          w1 hid hh hg hdisj hnd hattach
      have hal : attachLoop w1 hid (DB_MODULES.filter (fun m => m.id ≠ "clic-tools-main")) =
          (none, (attachLoop w1 hid
            (DB_MODULES.filter (fun m => m.id ≠ "clic-tools-main"))).2) := by
        rw [← hres1]
      rw [hal]
      dsimp only
      simp only [hgl]
      cases hrun : stmt.run h2a.db (attachedView
          (attachLoop w1 hid (DB_MODULES.filter (fun m => m.id ≠ "clic-tools-main"))).2
          h2a) with
      | error msg =>
        simp only [hrun]
        refine detach_leaves_clean _ hid _ h2a hgl ?_ ?_
        · rw [hcch2]
          exact hcch
        · intro ap hap
          rcases hmemL ap hap with hL | hR
          · exact absurd (hatt0 ▸ hL) (List.not_mem_nil ap)
          · exact hR
      | ok pair =>
        obtain ⟨rows, mainDb2⟩ := pair
        simp only [hrun]
        refine detach_leaves_clean _ hid _ { h2a with db := mainDb2 }
          (aget_aset_self hid _ _) ?_ ?_
        · show aget DB_FILE (attachLoop w1 hid
            (DB_MODULES.filter (fun m => m.id ≠ "clic-tools-main"))).2.cache = some hid
          rw [hcch2]
          exact hcch
        · intro ap hap
          rcases hmemL ap hap with hL | hR
          · exact absurd (hatt0 ▸ hL) (List.not_mem_nil ap)
          · exact hR

/-- A harmless read-only statement used to exercise queryLocalDb. -/
def c1Stmt : SqlStmt :=
  { text := "SELECT 1", run := fun d _ => .ok ([], d) }

/-- A clean open handle on the main database, with nothing attached. -/
def c1MainHandle : HandleState :=
  { file := "intratool.db", isOpen := true, db := [], walMode := true, attached := [] }

/-- A world with a clean cached open main handle, an attachable planner file
and an unreadable requests file: the second ATTACH of the loop fails. -/
def c1World : DbWorld :=
  { fs := [("dbs/intratool.db", .dbFile []), ("dbs/planner.db", .dbFile []),
      ("dbs/requests.db", .unreadable "EACCES")],
    cache := [("intratool.db", 0)],
    handles := [(0, c1MainHandle)],
    nextId := 1, nowMillis := 0 }

/-- C1 (counterexample): when the requests.db file exists but cannot be
opened, the ATTACH loop fails after production_planner was already attached,
and queryLocalDb returns with that auxiliary schema still attached to the
main handle — the claimed detach-always invariant does not hold. -/
theorem federation_leak :
    mainAttached (queryLocalDb defaultExt c1World c1Stmt).2 =
      [("production_planner", "dbs/planner.db")] := by decide

/-- The same world with the unreadable requests file removed: every module
file on disk is attachable. -/
def c1CleanWorld : DbWorld :=
  { fs := [("dbs/intratool.db", .dbFile []), ("dbs/planner.db", .dbFile [])],
    cache := [("intratool.db", 0)],
    handles := [(0, c1MainHandle)],
    nextId := 1, nowMillis := 0 }

/-- Witness for C1: on a world satisfying the amended hypotheses the call
leaves no auxiliary schema attached. -/
theorem federation_cleanup_witness :
    mainAttached c1CleanWorld = [] ∧
    aget (dbPath DB_FILE) c1CleanWorld.fs ≠ some .corrupt ∧
    (∀ m ∈ DB_MODULES, m.id ≠ "clic-tools-main" →
      fileAttachable (aget (dbPath m.dbFile) c1CleanWorld.fs) = true) ∧
    mainAttached (queryLocalDb defaultExt c1CleanWorld c1Stmt).2 = [] :=
  ⟨by decide, by decide, by decide,
   federation_cleanup defaultExt c1CleanWorld c1Stmt (by decide) (by decide) (by decide)⟩

/-- A harmless read-only statement used to exercise the error classification. -/
def c2Stmt : SqlStmt :=
  { text := "SELECT 1", run := fun d _ => .ok ([], d) }

/-- A world whose requests.db file exists but cannot be opened, so the ATTACH
loop of queryLocalDb throws after attaching the planner schema. -/
def c2World : DbWorld :=
  { fs := [("dbs/intratool.db", .dbFile []), ("dbs/planner.db", .dbFile []),
      ("dbs/requests.db", .unreadable "EACCES")],
    cache := [("intratool.db", 0)],
    handles := [(0, c1MainHandle)],
    nextId := 1, nowMillis := 0 }

/-- C2 (counterexample): a failing ATTACH statement propagates out of
queryLocalDb to the caller, contradicting the spec sentence that attachment
failures never cross the subsystem boundary. -/
theorem attach_failure_propagates :
    (queryLocalDb defaultExt c2World c2Stmt).1 =
      .error (.attachError "purchase_requests") := by rfl

/-- A world whose main database file exists but cannot be opened, so
connectDb throws a file-open error. -/
def c2ErrWorld : DbWorld :=
  { fs := [("dbs/intratool.db", .unreadable "EACCES")], cache := [],
    handles := [], nextId := 0, nowMillis := 0 }

/-- C2 (amended): the original propagation policy is wrong about ATTACH:
besides fatal file-open errors (the only errors connectDb can throw) and
statement errors carrying the offending SQL text, a failing ATTACH statement
also crosses the boundary of queryLocalDb; DETACH failures alone never
propagate, the detach phase being modelled total. -/
theorem error_propagation :
    (∀ (ext : ExtOps) (w : DbWorld) (f : String) (fr : Bool) (e : DbErr) (w2 : DbWorld),
      connectDb ext w f fr = (.error e, w2) → ∃ msg, e = .openError msg) ∧
    (∀ (ext : ExtOps) (w : DbWorld) (stmt : SqlStmt) (e : DbErr) (w2 : DbWorld),
      queryLocalDb ext w stmt = (.error e, w2) →
      (∃ msg, e = .openError msg) ∨ (∃ msg, e = .stmtError stmt.text msg) ∨
      (∃ a, e = .attachError a)) := by
  have hpart1 : ∀ (ext : ExtOps) (w : DbWorld) (f : String) (fr : Bool) (e : DbErr)
      (w2 : DbWorld), connectDb ext w f fr = (.error e, w2) →
      ∃ msg, e = .openError msg := by
    intro ext w f fr e w2 h
    unfold connectDb at h
    cases hfp : fastPath w f fr with
    | some id =>
      rw [hfp] at h
      exact absurd (congrArg Prod.fst h) (by simp)
    | none =>
      rw [hfp] at h
      simp only [coldConnect] at h
      cases ho : openFile (forceDelete (evictCached w f) (dbPath f) fr) (dbPath f) with
      | error msg =>
        simp only [ho] at h
        have h1 := congrArg Prod.fst h
        simp only at h1
        refine ⟨msg, ?_⟩
        injection h1 with h2
        exact h2.symm
      | ok trip =>
        obtain ⟨d0, dbE, fs2⟩ := trip
        simp only [ho] at h
        have h1 := congrArg Prod.fst h
        simp [finishConnect] at h1
  refine ⟨hpart1, ?_⟩
  intro ext w stmt e w2 h
  unfold queryLocalDb at h
  cases hcd : connectDb ext w DB_FILE false with
  | mk r w1 =>
    rw [hcd] at h
    cases r with
    | error e2 =>
      dsimp only at h
      have h1 := congrArg Prod.fst h
      simp only at h1
      have he : e2 = e := by injection h1
      subst he
      obtain ⟨msg, hmsg⟩ := hpart1 ext w DB_FILE false e2 w1 hcd
      exact Or.inl ⟨msg, hmsg⟩
    | ok hid =>
      dsimp only at h
      cases hal : attachLoop w1 hid (DB_MODULES.filter (fun m => m.id ≠ "clic-tools-main")) with
      | mk ra w2a =>
        rw [hal] at h
        cases ra with
        | some e2 =>
          dsimp only at h
          have h1 := congrArg Prod.fst h
          simp only at h1
          have he : e2 = e := by injection h1
          subst he
          obtain ⟨a, ha⟩ := attachLoop_error_classified _ w1 hid e2 w2a hal
          exact Or.inr (Or.inr ⟨a, ha⟩)
        | none =>
          dsimp only at h
          cases hgh : aget hid w2a.handles with
          | none =>
            simp only [hgh] at h
            have h1 := congrArg Prod.fst h
            simp only at h1
            have he : DbErr.stmtError stmt.text "handle missing" = e := by injection h1
            exact Or.inr (Or.inl ⟨"handle missing", he.symm⟩)
          | some hh =>
            simp only [hgh] at h
            cases hrun : stmt.run hh.db (attachedView w2a hh) with
            | error msg =>
              simp only [hrun] at h
              have h1 := congrArg Prod.fst h
              simp only at h1
              have he : DbErr.stmtError stmt.text msg = e := by injection h1
              exact Or.inr (Or.inl ⟨msg, he.symm⟩)
            | ok pair =>
              obtain ⟨rows, d2⟩ := pair
              simp only [hrun] at h
              have h1 := congrArg Prod.fst h
              simp only at h1
              exact absurd h1 (by simp)

/-- Witness for C2: the classification applied to a concrete file-open
failure of connectDb and to a concrete ATTACH failure of queryLocalDb. -/
theorem error_propagation_witness :
    (∃ msg, DbErr.openError "EACCES" = .openError msg) ∧
    ((∃ msg, DbErr.attachError "purchase_requests" = .openError msg) ∨
     (∃ msg, DbErr.attachError "purchase_requests" = .stmtError c2Stmt.text msg) ∨
     (∃ a, DbErr.attachError "purchase_requests" = .attachError a)) :=
  ⟨error_propagation.1 defaultExt c2ErrWorld "intratool.db" false
      (.openError "EACCES") c2ErrWorld (by rfl),
   error_propagation.2 defaultExt c2World c2Stmt
      (.attachError "purchase_requests")
      (queryLocalDb defaultExt c2World c2Stmt).2 (by rfl)⟩
